import Mathlib

/-!
Bond valuation engine (`bond_duration.c`).

A shallow embedding of the numerical core of `src/languages/c/bond_duration.c`:
`validate_params`, `calculate_npv`, `calculate_npv_derivative`, `calculate_yield`
and `calculate_bond_metrics`.

Modelling conventions.

* The functions that validate the parameters and solve for the yield are written once,
  over any type `D` of numbers that carries the operations of a C `double`.  They are read
  at two types.  At a linearly ordered field `K` they compute in exact arithmetic on
  numbers (`K = ℚ` to evaluate, `K = ℝ` for the statements about derivatives).  At
  `Dbl K`, a number of `K` or NaN, the operations follow IEEE 754 for NaN: an operation
  with a NaN operand gives NaN and every comparison with NaN is false.  Rounding and
  infinities are not modelled.
* The `NAN` that `calculate_yield` returns at its derivative guard is modelled by `none`;
  a rate that is itself NaN is `some Dbl.nan`.
* A C `int` is modelled by `Int`.  On validated parameters `maturity * frequency` is at
  most `1200`, so no overflow can occur.
* Division follows the field: the divisors met on validated parameters (`frequency`,
  `discount_rate` on the solver's domain, `price`, a derivative that passed the
  `DBL_EPSILON` guard) are all non-zero.
* Decimal constants are taken at their decimal value (`TOLERANCE = 10^-9`,
  `0.9 = 9/10`), and `DBL_EPSILON = 2^-52`.
* Messages printed on `stderr` are not modelled.
-/

namespace BondDuration

/-! ## Constants -/

/-- The macro `MAX_ITERATIONS`. -/
def MAX_ITERATIONS : Nat := 100

/-- The macro `MAX_MATURITY`. -/
def MAX_MATURITY : Int := 100

/-- The macro `MAX_FREQUENCY`. -/
def MAX_FREQUENCY : Int := 12

/-! ## The type `double` -/

/-- The function `fabs` of `math.h`. -/
class Fabs (D : Type) where
  /-- The absolute value. -/
  fabs : D → D

/-- On numbers `fabs` is the absolute value. -/
instance fabsOfField (K : Type) [LinearOrderedField K] : Fabs K :=
  ⟨fun x => |x|⟩

/-- A C `double` as far as NaN is concerned: a number, or NaN. -/
inductive Dbl (K : Type) where
  /-- The value NaN, not a number. -/
  | nan : Dbl K
  /-- A number. -/
  | num (value : K) : Dbl K

namespace Dbl

variable {K : Type}

/-- A unary operation on doubles: NaN gives NaN. -/
def map (f : K → K) : Dbl K → Dbl K
  | num x => num (f x)
  | nan => nan

/-- A binary operation on doubles: a NaN operand gives NaN. -/
def map₂ (f : K → K → K) : Dbl K → Dbl K → Dbl K
  | num x, num y => num (f x y)
  | _, _ => nan

/-- The comparison `<` of doubles: false when an operand is NaN. -/
def lt [LT K] : Dbl K → Dbl K → Prop
  | num x, num y => x < y
  | _, _ => False

/-- The comparison `<=` of doubles: false when an operand is NaN. -/
def le [LE K] : Dbl K → Dbl K → Prop
  | num x, num y => x ≤ y
  | _, _ => False

variable [LinearOrderedField K]

instance instZero : Zero (Dbl K) := ⟨num 0⟩
instance instOne : One (Dbl K) := ⟨num 1⟩
instance instNatCast : NatCast (Dbl K) := ⟨fun n => num (n : K)⟩
instance instIntCast : IntCast (Dbl K) := ⟨fun n => num (n : K)⟩
instance instAdd : Add (Dbl K) := ⟨map₂ (· + ·)⟩
instance instSub : Sub (Dbl K) := ⟨map₂ (· - ·)⟩
instance instMul : Mul (Dbl K) := ⟨map₂ (· * ·)⟩
instance instDiv : Div (Dbl K) := ⟨map₂ (· / ·)⟩
instance instNeg : Neg (Dbl K) := ⟨map (fun x => -x)⟩
instance instPow : Pow (Dbl K) ℕ := ⟨fun a n => map (fun x => x ^ n) a⟩
instance instFabs : Fabs (Dbl K) := ⟨map (fun x => |x|)⟩
instance instLT : LT (Dbl K) := ⟨lt⟩
instance instLE : LE (Dbl K) := ⟨le⟩

instance decidableLT : ∀ a b : Dbl K, Decidable (a < b)
  | num x, num y => inferInstanceAs (Decidable (x < y))
  | nan, _ => isFalse (fun h => h)
  | num _, nan => isFalse (fun h => h)

instance decidableLE : ∀ a b : Dbl K, Decidable (a ≤ b)
  | num x, num y => inferInstanceAs (Decidable (x ≤ y))
  | nan, _ => isFalse (fun h => h)
  | num _, nan => isFalse (fun h => h)

end Dbl

section SolverDefs

variable {D : Type} [Zero D] [One D] [Add D] [Sub D] [Mul D] [Div D] [Neg D] [Pow D ℕ]
  [NatCast D] [IntCast D] [LT D] [LE D] [Fabs D]
  [∀ a b : D, Decidable (a < b)] [∀ a b : D, Decidable (a ≤ b)]

/-- The macro `TOLERANCE`, `1e-9`. -/
def TOLERANCE : D := 1 / 10 ^ 9

/-- The constant `DBL_EPSILON` of `float.h`, `2^-52`. -/
def DBL_EPSILON : D := 1 / 2 ^ 52

/-! ## Data model -/

/-- The struct `BondParams`. -/
structure BondParams (K : Type) where
  price : K
  face_value : K
  coupon_rate : K
  maturity : Int
  frequency : Int
  amount : K

/-- The struct `BondResults`. -/
structure BondResults (K : Type) where
  yield_rate : K
  duration : K
  modified_duration : K
  convexity : K
  net_yield_rate : K
  total_coupons : K
  net_total_at_maturity : K

/-! ## `validate_params` -/

/-- The function `validate_params`: `0` when the parameters are accepted, `-1` otherwise.
Read at `Dbl K` the three comparisons on doubles are false when the field is NaN, as in
C. -/
def validate_params (params : BondParams D) : Int :=
  if params.price ≤ 0 then -1
  else if params.face_value ≤ 0 then -1
  else if params.coupon_rate < 0 then -1
  else if params.maturity ≤ 0 ∨ params.maturity > MAX_MATURITY then -1
  else if params.frequency ≤ 0 ∨ params.frequency > MAX_FREQUENCY then -1
  else 0

/-! ## The cash-flow schedule shared by the three loops -/

/-- The local `n_payments = params->maturity * params->frequency`. -/
def n_payments (params : BondParams D) : Int :=
  params.maturity * params.frequency

/-- The local `coupon_amount = face_value * coupon_rate / frequency`. -/
def coupon_amount (params : BondParams D) : D :=
  params.face_value * params.coupon_rate / (params.frequency : D)

/-- The local `discount_rate = 1.0 + yield_rate / frequency`. -/
def discount_rate (params : BondParams D) (yield_rate : D) : D :=
  1 + yield_rate / (params.frequency : D)

/-- The local `cash_flow` of loop iteration `i`: the coupon, plus the face value when
`i == n_payments`. -/
def cash_flow (params : BondParams D) (i : Nat) : D :=
  if (i : Int) = n_payments params then coupon_amount params + params.face_value
  else coupon_amount params

/-! ## `calculate_npv` -/

/-- The pair `(discount_factor, npv)` after `i` iterations of the loop of `calculate_npv`. -/
def npvLoop (params : BondParams D) (yield_rate : D) : Nat → D × D
  | 0 => (1, 0)
  | i + 1 =>
    let s := npvLoop params yield_rate i
    let discount_factor := s.1 * (1 / discount_rate params yield_rate)
    (discount_factor, s.2 + cash_flow params (i + 1) * discount_factor)

/-- The function `calculate_npv`. -/
def calculate_npv (params : BondParams D) (yield_rate : D) : D :=
  (npvLoop params yield_rate (n_payments params).toNat).2 - params.price

/-! ## `calculate_npv_derivative` -/

/-- The pair `(discount_factor, derivative)` after `i` iterations of the loop of
`calculate_npv_derivative`. -/
def derivLoop (params : BondParams D) (yield_rate : D) : Nat → D × D
  | 0 => (1, 0)
  | i + 1 =>
    let s := derivLoop params yield_rate i
    let discount_factor := s.1 * (1 / discount_rate params yield_rate)
    (discount_factor,
      s.2 - (((i + 1 : Nat) : D) * cash_flow params (i + 1) * discount_factor)
        / ((params.frequency : D) * discount_rate params yield_rate))

/-- The function `calculate_npv_derivative`. -/
def calculate_npv_derivative (params : BondParams D) (yield_rate : D) : D :=
  (derivLoop params yield_rate (n_payments params).toNat).2

/-! ## `calculate_yield` -/

/-- The way a run of `calculate_yield` leaves the function. -/
inductive YieldExit (D : Type) where
  /-- The statement `return yield_rate` after the test `fabs(npv) < TOLERANCE`. -/
  | npvConverged (rate : D)
  /-- The statement `return NAN` after the test `fabs(derivative) < DBL_EPSILON`. -/
  | degenerate
  /-- The statement `return yield_rate` after the test `fabs(delta) < TOLERANCE`. -/
  | stepConverged (rate : D)
  /-- The statement `return yield_rate` after the loop, all iterations used. -/
  | exhausted (rate : D)

/-- A run of the solver: how it ended, and the rates at which the loop body called
`calculate_npv`, in order (one per iteration started). -/
structure YieldRun (D : Type) where
  exit : YieldExit D
  evaluated : List D

/-- The lower bound `-0.9 / frequency` used by the clamp of `calculate_yield`. -/
def rate_floor (params : BondParams D) : D :=
  -(9 / 10) / (params.frequency : D)

/-- The clamp of `calculate_yield`: `if (yield_rate < -0.9 / frequency) yield_rate = -0.9 /
frequency`. -/
def clamp_rate (params : BondParams D) (yield_rate : D) : D :=
  if yield_rate < rate_floor params then rate_floor params else yield_rate

/-- The loop of `calculate_yield` with `fuel` iterations left and current `yield_rate`. -/
def yieldLoop (params : BondParams D) : Nat → D → YieldRun D
  | 0, yield_rate => ⟨YieldExit.exhausted yield_rate, []⟩
  | fuel + 1, yield_rate =>
    let npv := calculate_npv params yield_rate
    if Fabs.fabs npv < TOLERANCE then ⟨YieldExit.npvConverged yield_rate, [yield_rate]⟩
    else
      let derivative := calculate_npv_derivative params yield_rate
      if Fabs.fabs derivative < DBL_EPSILON then ⟨YieldExit.degenerate, [yield_rate]⟩
      else
        let delta := npv / derivative
        let clamped := clamp_rate params (yield_rate - delta)
        if Fabs.fabs delta < TOLERANCE then ⟨YieldExit.stepConverged clamped, [yield_rate]⟩
        else
          let rest := yieldLoop params fuel clamped
          ⟨rest.exit, yield_rate :: rest.evaluated⟩

/-- The run of `calculate_yield`: the loop started at `coupon_rate` with
`MAX_ITERATIONS` iterations. -/
def yieldRun (params : BondParams D) : YieldRun D :=
  yieldLoop params MAX_ITERATIONS params.coupon_rate

/-- The value returned at an exit: `none` stands for the `NAN` of the derivative guard. -/
def YieldExit.value : YieldExit D → Option D
  | YieldExit.npvConverged rate => some rate
  | YieldExit.degenerate => none
  | YieldExit.stepConverged rate => some rate
  | YieldExit.exhausted rate => some rate

/-- The function `calculate_yield`; `none` stands for the `NAN` returned at the derivative
guard. -/
def calculate_yield (params : BondParams D) : Option D :=
  (yieldRun params).exit.value

end SolverDefs

section Defs

variable {K : Type} [LinearOrderedField K]

/-- The macro `TAX_RATE`, `0.125`. -/
def TAX_RATE : K := 1 / 8

/-! ## `calculate_bond_metrics` -/

/-- The accumulators of the loop of `calculate_bond_metrics`. -/
structure MetricsState (K : Type) where
  discount_factor : K
  weighted_time_sum : K
  weighted_time_squared_sum : K
  present_value_sum : K

/-- The accumulators after `i` iterations of the loop of `calculate_bond_metrics`. -/
def metricsLoop (params : BondParams K) (yield_rate : K) : Nat → MetricsState K
  | 0 => ⟨1, 0, 0, 0⟩
  | i + 1 =>
    let s := metricsLoop params yield_rate i
    let discount_factor := s.discount_factor * (1 / discount_rate params yield_rate)
    let present_value := cash_flow params (i + 1) * discount_factor
    let time_in_years := ((i + 1 : Nat) : K) / (params.frequency : K)
    ⟨discount_factor,
      s.weighted_time_sum + time_in_years * present_value,
      s.weighted_time_squared_sum + time_in_years * time_in_years * present_value,
      s.present_value_sum + present_value⟩

/-- The function `calculate_bond_metrics`: it writes three fields of `results`. -/
def calculate_bond_metrics (params : BondParams K) (yield_rate : K)
    (results : BondResults K) : BondResults K :=
  let s := metricsLoop params yield_rate (n_payments params).toNat
  let duration := s.weighted_time_sum / params.price
  { results with
    duration := duration
    modified_duration := duration / discount_rate params yield_rate
    convexity := s.weighted_time_squared_sum
      / (params.price * discount_rate params yield_rate ^ 2) }

/-! ## The post-processing of `main` -/

/-- The statements of `main` that follow the call of `calculate_bond_metrics` and precede
the printing: they write `net_yield_rate`, `total_coupons` and `net_total_at_maturity` of
`results`. -/
def main_post_processing (params : BondParams K) (results : BondResults K) :
    BondResults K :=
  let net_yield_rate := results.yield_rate * (1 - TAX_RATE)
  let n_payments : Int := params.maturity * params.frequency
  let coupon_amount_per_unit :=
    params.face_value * params.coupon_rate / (params.frequency : K)
  let coupon_amount := coupon_amount_per_unit * params.amount / params.face_value
  let total_coupons := coupon_amount * (n_payments : K)
  let net_coupons := total_coupons * (1 - TAX_RATE)
  let price_paid := params.price * params.amount / 100
  let capital_gain := params.amount - price_paid
  let net_capital_gain :=
    if capital_gain > 0 then capital_gain * (1 - TAX_RATE) else capital_gain
  { results with
    net_yield_rate := net_yield_rate
    total_coupons := total_coupons
    net_total_at_maturity := price_paid + net_coupons + net_capital_gain }

/-! ## The iterations of the solver, one by one -/

/-- The update and clamp of one pass of the loop body of `calculate_yield`:
`yield_rate -= npv / derivative`, then the clamp. -/
def newton_update (params : BondParams K) (yield_rate : K) : K :=
  clamp_rate params
    (yield_rate - calculate_npv params yield_rate
      / calculate_npv_derivative params yield_rate)

/-- The rate after `k` updates and clamps, starting from the seed `coupon_rate`. -/
def rate_after_updates (params : BondParams K) (k : Nat) : K :=
  (newton_update params)^[k] params.coupon_rate

/-- At the rate `yield_rate` a pass of the loop body returns through none of its three
exits: neither convergence test holds and the derivative passes its guard. -/
def no_test_met (params : BondParams K) (yield_rate : K) : Prop :=
  ¬|calculate_npv params yield_rate| < TOLERANCE ∧
  ¬|calculate_npv_derivative params yield_rate| < DBL_EPSILON ∧
  ¬|calculate_npv params yield_rate / calculate_npv_derivative params yield_rate|
      < TOLERANCE

instance no_test_met_decidable (params : BondParams K) (yield_rate : K) :
    Decidable (no_test_met params yield_rate) := by
  unfold no_test_met
  infer_instance

/-! ## Closed forms stated by the specification -/

/-- The cash flow of period `i` as the specification words it: the coupon per period
`face_value * coupon_rate / frequency`, with the face value added in the last period
`n = maturity * frequency`. -/
def specCashFlow (params : BondParams K) (i : Nat) : K :=
  if i < (params.maturity * params.frequency).toNat then
    params.face_value * params.coupon_rate / (params.frequency : K)
  else params.face_value * params.coupon_rate / (params.frequency : K) + params.face_value

/-- The present value `PV_i = cf_i * (1 + r/frequency)^(-i)` of the specification. -/
def specPresentValue (params : BondParams K) (r : K) (i : Nat) : K :=
  specCashFlow params i * (1 + r / (params.frequency : K)) ^ (-(i : ℤ))

/-- The Macaulay duration as the specification words it:
`(sum_{i=1..n} (i/frequency) * PV_i) / price`. -/
def durationClosedForm (params : BondParams K) (r : K) : K :=
  (∑ i in Finset.Icc 1 (params.maturity * params.frequency).toNat,
    ((i : K) / (params.frequency : K)) * specPresentValue params r i) / params.price

/-- The modified duration as the specification words it:
`duration / (1 + r/frequency)`. -/
def modifiedDurationClosedForm (params : BondParams K) (r : K) : K :=
  durationClosedForm params r / (1 + r / (params.frequency : K))

/-- The convexity as the specification words it:
`(sum_{i=1..n} (i/frequency)^2 * PV_i) / (price * (1 + r/frequency)^2)`. -/
def convexityClosedForm (params : BondParams K) (r : K) : K :=
  (∑ i in Finset.Icc 1 (params.maturity * params.frequency).toNat,
    ((i : K) / (params.frequency : K)) ^ 2 * specPresentValue params r i)
    / (params.price * (1 + r / (params.frequency : K)) ^ 2)


/-- The closed form of the net present value as the specification words it:
`sum_{i=1..n} cf_i * (1 + y/frequency)^(-i) - price` with `n = maturity * frequency`,
`cf_i = face_value * coupon_rate / frequency` for `i < n` and the face value added
for `i = n`. -/
def npvClosedForm (params : BondParams K) (y : K) : K :=
  let n := (params.maturity * params.frequency).toNat
  (∑ i in Finset.Icc 1 n,
    (if i < n then params.face_value * params.coupon_rate / (params.frequency : K)
      else params.face_value * params.coupon_rate / (params.frequency : K)
        + params.face_value)
      * (1 + y / (params.frequency : K)) ^ (-(i : ℤ))) - params.price

/-! ## Concrete inputs -/

/-- A one-year annual bond at par: price 100, face value 100, coupon 5%. -/
def exampleParBond (K : Type) [LinearOrderedField K] : BondParams K :=
  ⟨100, 100, 1 / 20, 1, 1, 100⟩

/-- A one-year annual zero-coupon bond with a very large face value, `1e15`, priced
`1e5` below it. -/
def exampleLargeFace : BondParams ℚ :=
  ⟨10 ^ 15 - 10 ^ 5, 10 ^ 15, 0, 1, 1, 100⟩

/-- The par bond with its price raised by `5e-10`. -/
def exampleJustAbovePar : BondParams ℚ :=
  { exampleParBond ℚ with price := 100 + 1 / (2 * 10 ^ 9) }

/-- The par bond with its price raised by `1e-6`. -/
def exampleAbovePar : BondParams ℚ :=
  { exampleParBond ℚ with price := 100 + 1 / 10 ^ 6 }

/-- A one-year annual zero-coupon bond of face value 100 priced at `100.00000001`. -/
def exampleZeroCouponAbovePar : BondParams ℚ :=
  ⟨100 + 1 / 10 ^ 8, 100, 0, 1, 1, 100⟩

/-- A one-year annual zero-coupon bond of face value `2^200` priced at `1`. -/
def exampleDeepDiscount : BondParams ℚ :=
  ⟨1, 2 ^ 200, 0, 1, 1, 100⟩

/-- The bond of the tax-arithmetic example: price 96.24, coupon 3.15%, 19 years, annual,
face value 100, nominal amount 10000. -/
def exampleTaxBond : BondParams ℚ :=
  ⟨9624 / 100, 100, 315 / 10000, 19, 1, 10000⟩

/-- The parameters as the C code holds them when every field is a number. -/
def BondParams.toDbl (params : BondParams K) : BondParams (Dbl K) :=
  ⟨Dbl.num params.price, Dbl.num params.face_value, Dbl.num params.coupon_rate,
    params.maturity, params.frequency, Dbl.num params.amount⟩

/-- The par bond with the price NaN, as `main` stores it from `atof` for the option
`-p nan`. -/
def exampleNaNPrice : BondParams (Dbl ℚ) :=
  { (exampleParBond ℚ).toDbl with price := Dbl.nan }

/-- A one-year annual zero-coupon bond of face value 100 priced at `1000.000005`. -/
def exampleClampExit : BondParams ℚ :=
  ⟨1000 + 5 / 10 ^ 6, 100, 0, 1, 1, 100⟩

/-- The value of `results` before any field is written (`BondResults results = {0}`). -/
def zeroResults (K : Type) [LinearOrderedField K] : BondResults K :=
  ⟨0, 0, 0, 0, 0, 0, 0⟩

end Defs



/-! ## Validation -/

section Generic

variable {K : Type} [LinearOrderedField K]

/-- The accepting condition of `validate_params`, field by field. -/
theorem validate_params_eq_zero_iff (params : BondParams K) :
    validate_params params = 0 ↔
      (0 < params.price ∧ 0 < params.face_value ∧ 0 ≤ params.coupon_rate ∧
        (1 ≤ params.maturity ∧ params.maturity ≤ 100) ∧
        (1 ≤ params.frequency ∧ params.frequency ≤ 12)) := by
  unfold validate_params MAX_MATURITY MAX_FREQUENCY
  constructor
  · intro h
    split_ifs at h with h1 h2 h3 h4 h5
    push_neg at h1 h2 h3 h4 h5
    exact ⟨h1, h2, h3, ⟨by omega, by omega⟩, ⟨by omega, by omega⟩⟩
  · rintro ⟨h1, h2, h3, ⟨h4, h4b⟩, ⟨h5, h5b⟩⟩
    rw [if_neg (not_le.mpr h1), if_neg (not_le.mpr h2), if_neg (not_lt.mpr h3),
      if_neg (by omega), if_neg (by omega)]

/-- On parameters whose fields are numbers, `validate_params` returns `0` exactly when
`price > 0`, `face_value > 0`, `coupon_rate >= 0`, `1 <= maturity <= 100` and
`1 <= frequency <= 12`; in every other case it returns `-1`; and the result does not
depend on the field `amount`.  (With a NaN field the guards are false: see
`validate_params_accepts_nan_price`.) -/
theorem validate_params_spec (params : BondParams K) :
    (validate_params params = 0 ↔
      (0 < params.price ∧ 0 < params.face_value ∧ 0 ≤ params.coupon_rate ∧
        (1 ≤ params.maturity ∧ params.maturity ≤ 100) ∧
        (1 ≤ params.frequency ∧ params.frequency ≤ 12))) ∧
    (validate_params params ≠ 0 → validate_params params = -1) ∧
    (∀ a : K, validate_params { params with amount := a } = validate_params params) := by
  refine ⟨validate_params_eq_zero_iff params, ?_, fun a => rfl⟩
  unfold validate_params
  intro h
  split_ifs at h ⊢ <;> first | rfl | exact absurd rfl h

/-- On validated parameters there is at least one payment. -/
theorem n_payments_pos (params : BondParams K) (hv : validate_params params = 0) :
    1 ≤ n_payments params := by
  obtain ⟨-, -, -, ⟨hm, -⟩, ⟨hf, -⟩⟩ := (validate_params_eq_zero_iff params).mp hv
  unfold n_payments
  nlinarith

/-- On validated parameters the loop bound is the number of iterations. -/
theorem n_payments_toNat (params : BondParams K) (hv : validate_params params = 0) :
    ((n_payments params).toNat : Int) = n_payments params :=
  Int.toNat_of_nonneg (by have := n_payments_pos params hv; omega)

/-! ## The loops in closed form -/

/-- The discount factor after `k` iterations of the loop of `calculate_npv`. -/
theorem npvLoop_fst (params : BondParams K) (y : K) (k : Nat) :
    (npvLoop params y k).1 = (1 / discount_rate params y) ^ k := by
  induction k with
  | zero => simp [npvLoop]
  | succ k ih => simp only [npvLoop, ih, pow_succ]

/-- The accumulator `npv` after `k` iterations of the loop of `calculate_npv`. -/
theorem npvLoop_snd (params : BondParams K) (y : K) (k : Nat) :
    (npvLoop params y k).2
      = ∑ i in Finset.Icc 1 k, cash_flow params i * (1 / discount_rate params y) ^ i := by
  induction k with
  | zero => simp [npvLoop]
  | succ k ih =>
    rw [Finset.sum_Icc_succ_top (by omega)]
    simp only [npvLoop, ih, npvLoop_fst, pow_succ]

/-- The discount factor after `k` iterations of the loop of `calculate_npv_derivative`. -/
theorem derivLoop_fst (params : BondParams K) (y : K) (k : Nat) :
    (derivLoop params y k).1 = (1 / discount_rate params y) ^ k := by
  induction k with
  | zero => simp [derivLoop]
  | succ k ih => simp only [derivLoop, ih, pow_succ]

/-- The accumulator `derivative` after `k` iterations of the loop of
`calculate_npv_derivative`. -/
theorem derivLoop_snd (params : BondParams K) (y : K) (k : Nat) :
    (derivLoop params y k).2
      = -∑ i in Finset.Icc 1 k,
          ((i : K) * cash_flow params i * (1 / discount_rate params y) ^ i)
            / ((params.frequency : K) * discount_rate params y) := by
  induction k with
  | zero => simp [derivLoop]
  | succ k ih =>
    rw [Finset.sum_Icc_succ_top (by omega)]
    simp only [derivLoop, ih, derivLoop_fst, pow_succ]
    ring

/-- Claim C2. In exact arithmetic, for validated parameters and a rate `y` with
`1 + y/frequency > 0`, `calculate_npv` (which accumulates the discount factor by repeated
multiplication) equals the closed form
`sum_{i=1..n} cf_i * (1 + y/frequency)^(-i) - price`. -/
theorem calculate_npv_eq_closed_form (params : BondParams K) (y : K)
    (hv : validate_params params = 0) (_hy : 0 < 1 + y / (params.frequency : K)) :
    calculate_npv params y = npvClosedForm params y := by
  have hn : ((params.maturity * params.frequency).toNat : Int)
      = params.maturity * params.frequency := n_payments_toNat params hv
  unfold calculate_npv npvClosedForm
  rw [npvLoop_snd]
  unfold n_payments
  congr 1
  refine Finset.sum_congr rfl fun i hi => ?_
  rw [Finset.mem_Icc] at hi
  have h1 : (1 / discount_rate params y) ^ i
      = (1 + y / (params.frequency : K)) ^ (-(i : ℤ)) := by
    rw [zpow_neg, zpow_natCast, one_div, inv_pow, discount_rate]
  rw [h1]
  congr 1
  unfold cash_flow coupon_amount n_payments
  by_cases hlt : i < (params.maturity * params.frequency).toNat
  · rw [if_pos hlt, if_neg (by omega)]
  · rw [if_neg hlt, if_pos (by omega)]

/-- Witness of claim C2 at the par bond, rate 5%. -/
theorem calculate_npv_eq_closed_form_witness :
    validate_params (exampleParBond ℚ) = 0 ∧
    (0 : ℚ) < 1 + (1 / 20) / ((exampleParBond ℚ).frequency : ℚ) ∧
    calculate_npv (exampleParBond ℚ) (1 / 20) = npvClosedForm (exampleParBond ℚ) (1 / 20) :=
  ⟨(validate_params_eq_zero_iff _).mpr (by norm_num [exampleParBond]),
    by norm_num [exampleParBond],
    calculate_npv_eq_closed_form _ _
      ((validate_params_eq_zero_iff _).mpr (by norm_num [exampleParBond]))
      (by norm_num [exampleParBond])⟩

end Generic

/-! ## The sensitivity evaluator is the derivative of the valuator -/

/-- The discount base is an affine function of the rate. -/
theorem hasDerivAt_discount_rate (params : BondParams ℝ) (y : ℝ) :
    HasDerivAt (fun x => discount_rate params x) (1 / (params.frequency : ℝ)) y := by
  unfold discount_rate
  exact ((hasDerivAt_id y).div_const _).const_add 1

/-- After any number of iterations, the accumulator of `calculate_npv_derivative` is the
derivative of the accumulator of `calculate_npv`. -/
theorem hasDerivAt_npvLoop (params : BondParams ℝ) (y : ℝ)
    (hd : discount_rate params y ≠ 0) (k : Nat) :
    HasDerivAt (fun x => (npvLoop params x k).2) ((derivLoop params y k).2) y := by
  induction k with
  | zero => simpa [npvLoop, derivLoop] using hasDerivAt_const y (0 : ℝ)
  | succ k ih =>
    have hpow := (((hasDerivAt_discount_rate params y).inv hd).pow (k + 1)).const_mul
      (cash_flow params (k + 1))
    have hsum := ih.add hpow
    refine HasDerivAt.congr_deriv (hsum.congr_of_eventuallyEq
      (Filter.Eventually.of_forall fun x => ?_)) ?_
    · simp only [npvLoop, npvLoop_fst, one_div, inv_pow, pow_succ, Pi.pow_apply, Pi.inv_apply]
    · simp only [derivLoop, derivLoop_fst, Nat.add_sub_cancel]
      by_cases hf : (params.frequency : ℝ) = 0
      · simp [hf]
      · field_simp
        ring

/-- Claim C3. In exact real arithmetic, for validated parameters and a rate `y` with
`1 + y/frequency > 0`, `calculate_npv_derivative params y` is the derivative at `y` of
the function `x ↦ calculate_npv params x`. -/
theorem calculate_npv_derivative_is_derivative (params : BondParams ℝ) (y : ℝ)
    (_hv : validate_params params = 0) (hy : 0 < 1 + y / (params.frequency : ℝ)) :
    HasDerivAt (fun x => calculate_npv params x) (calculate_npv_derivative params y) y := by
  unfold calculate_npv calculate_npv_derivative
  exact (hasDerivAt_npvLoop params y (ne_of_gt hy) _).sub_const _

/-- Witness of claim C3 at the par bond, rate 5%. -/
theorem calculate_npv_derivative_is_derivative_witness :
    validate_params (exampleParBond ℝ) = 0 ∧
    (0 : ℝ) < 1 + (1 / 20) / ((exampleParBond ℝ).frequency : ℝ) ∧
    HasDerivAt (fun x => calculate_npv (exampleParBond ℝ) x)
      (calculate_npv_derivative (exampleParBond ℝ) (1 / 20)) (1 / 20) :=
  ⟨(validate_params_eq_zero_iff _).mpr (by norm_num [exampleParBond]),
    by norm_num [exampleParBond],
    calculate_npv_derivative_is_derivative _ _
      ((validate_params_eq_zero_iff _).mpr (by norm_num [exampleParBond]))
      (by norm_num [exampleParBond])⟩
section Solver
variable {K : Type} [LinearOrderedField K]

/-- The cash flows of the schedule split into the coupon stream and the redemption. -/
theorem cash_flow_sum (params : BondParams K) (hv : validate_params params = 0)
    (g : Nat → K) :
    ∑ i in Finset.Icc 1 (n_payments params).toNat, cash_flow params i * g i
      = coupon_amount params * ∑ i in Finset.Icc 1 (n_payments params).toNat, g i
        + params.face_value * g (n_payments params).toNat := by
  have hn := n_payments_toNat params hv
  have hpos := n_payments_pos params hv
  have hcf : ∀ i : Nat, cash_flow params i * g i
      = coupon_amount params * g i
        + (if (n_payments params).toNat = i then params.face_value * g i else 0) := by
    intro i
    unfold cash_flow
    by_cases h : (i : Int) = n_payments params
    · rw [if_pos h, if_pos (by omega)]; ring
    · rw [if_neg h, if_neg (by omega)]; ring
  simp only [hcf, Finset.sum_add_distrib, ← Finset.mul_sum]
  rw [Finset.sum_ite_eq, if_pos (Finset.mem_Icc.mpr ⟨by omega, le_refl _⟩)]

/-- On numbers `fabs` is the absolute value. -/
theorem fabs_eq_abs (x : K) : Fabs.fabs x = |x| := rfl

/-- The first iteration of the solver leaves through the first test when it holds. -/
theorem yieldLoop_of_npv_small (params : BondParams K) (fuel : Nat) (y : K)
    (h : |calculate_npv params y| < TOLERANCE) :
    yieldLoop params (fuel + 1) y = ⟨YieldExit.npvConverged y, [y]⟩ := by
  simp only [yieldLoop, fabs_eq_abs, if_pos h]

end Solver
section Solver2
variable {K : Type} [LinearOrderedField K]

/-- The clamp of `calculate_yield` never returns a rate below the floor. -/
theorem rate_floor_le_clamp (params : BondParams K) (u : K) :
    rate_floor params ≤ clamp_rate params u := by
  unfold clamp_rate
  split_ifs with h
  · exact le_refl _
  · exact not_lt.mp h

/-- At or above the floor the discount base is at least `0.1`. -/
theorem discount_rate_pos_of_floor_le (params : BondParams K)
    (hv : validate_params params = 0) (y : K) (hy : rate_floor params ≤ y) :
    0 < discount_rate params y := by
  obtain ⟨-, -, -, -, ⟨hf, -⟩⟩ := (validate_params_eq_zero_iff params).mp hv
  have hfK : (1 : K) ≤ (params.frequency : K) := by exact_mod_cast hf
  have hf0 : (0 : K) < (params.frequency : K) := lt_of_lt_of_le one_pos hfK
  unfold rate_floor at hy
  unfold discount_rate
  have h1 : -(9 / 10) / (params.frequency : K) / (params.frequency : K)
      ≤ y / (params.frequency : K) := div_le_div_of_nonneg_right hy hf0.le
  have h2 : -(9 / 10 : K) ≤ -(9 / 10) / (params.frequency : K) / (params.frequency : K) := by
    rw [div_div, le_div_iff₀ (mul_pos hf0 hf0)]
    nlinarith
  linarith

/-- The invariant of the loop of `calculate_yield`. -/
theorem yieldLoop_floor (params : BondParams K) (fuel : Nat) :
    ∀ y : K, rate_floor params ≤ y →
      (∀ z ∈ (yieldLoop params fuel y).evaluated, rate_floor params ≤ z) ∧
      (∀ r, (yieldLoop params fuel y).exit.value = some r → rate_floor params ≤ r) ∧
      (yieldLoop params fuel y).evaluated.length ≤ fuel := by
  induction fuel with
  | zero =>
    intro y hy
    simp only [yieldLoop, YieldExit.value, Option.some.injEq]
    exact ⟨fun z hz => absurd hz (List.not_mem_nil z), fun r hr => hr ▸ hy, le_refl _⟩
  | succ fuel ih =>
    intro y hy
    simp only [yieldLoop]
    split_ifs with h1 h2 h3
    · simp only [YieldExit.value, Option.some.injEq, List.mem_singleton, List.length_singleton]
      exact ⟨fun z hz => hz ▸ hy, fun r hr => hr ▸ hy, by omega⟩
    · simp only [YieldExit.value, List.mem_singleton, List.length_singleton]
      exact ⟨fun z hz => hz ▸ hy, fun _ hr => Option.noConfusion hr, by omega⟩
    · simp only [YieldExit.value, Option.some.injEq, List.mem_singleton, List.length_singleton]
      exact ⟨fun z hz => hz ▸ hy, fun r hr => hr ▸ rate_floor_le_clamp params _, by omega⟩
    · obtain ⟨ha, hb, hc⟩ := ih _ (rate_floor_le_clamp params
        (y - calculate_npv params y / calculate_npv_derivative params y))
      refine ⟨fun z hz => ?_, hb, ?_⟩
      · rcases List.mem_cons.mp hz with hz | hz
        · exact hz ▸ hy
        · exact ha z hz
      · simp only [List.length_cons]
        omega

/-- The seed of the solver is above the floor. -/
theorem rate_floor_le_coupon_rate (params : BondParams K)
    (hv : validate_params params = 0) : rate_floor params ≤ params.coupon_rate := by
  obtain ⟨-, -, hc, -, ⟨hf, -⟩⟩ := (validate_params_eq_zero_iff params).mp hv
  have hf0 : (0 : K) < (params.frequency : K) := by exact_mod_cast (by omega : 0 < params.frequency)
  refine le_trans ?_ hc
  unfold rate_floor
  exact div_nonpos_of_nonpos_of_nonneg (by norm_num) hf0.le

/-- The clamp invariant on numbers: for validated parameters whose fields are numbers,
every rate at which `calculate_yield` calls `calculate_npv` (and hence
`calculate_npv_derivative`), and every rate it returns, is at least `-0.9 / frequency`, so
that the discount base `1 + rate / frequency` is positive; and the loop body runs at most
100 times.  (With a NaN price the clamp does not hold the rate: see
`calculate_yield_evaluates_at_nan`.) -/
theorem calculate_yield_clamp_invariant (params : BondParams K)
    (hv : validate_params params = 0) :
    (∀ y ∈ (yieldRun params).evaluated,
      -(9 / 10) / (params.frequency : K) ≤ y ∧ 0 < 1 + y / (params.frequency : K)) ∧
    (∀ r, calculate_yield params = some r →
      -(9 / 10) / (params.frequency : K) ≤ r ∧ 0 < 1 + r / (params.frequency : K)) ∧
    (yieldRun params).evaluated.length ≤ 100 := by
  obtain ⟨ha, hb, hc⟩ := yieldLoop_floor params MAX_ITERATIONS params.coupon_rate
    (rate_floor_le_coupon_rate params hv)
  exact ⟨fun y hy => ⟨ha y hy, discount_rate_pos_of_floor_le params hv y (ha y hy)⟩,
    fun r hr => ⟨hb r hr, discount_rate_pos_of_floor_le params hv r (hb r hr)⟩, hc⟩

end Solver2
section OnePeriod
variable {K : Type} [LinearOrderedField K]

/-- The valuator of a bond with a single payment. -/
theorem calculate_npv_one_period (params : BondParams K) (hm : params.maturity = 1)
    (hf : params.frequency = 1) (y : K) :
    calculate_npv params y
      = (params.face_value * params.coupon_rate + params.face_value) * (1 / (1 + y))
        - params.price := by
  simp [calculate_npv, npvLoop, n_payments, cash_flow, coupon_amount, discount_rate, hm, hf]

/-- The sensitivity evaluator of a bond with a single payment. -/
theorem calculate_npv_derivative_one_period (params : BondParams K)
    (hm : params.maturity = 1) (hf : params.frequency = 1) (y : K) :
    calculate_npv_derivative params y
      = -((params.face_value * params.coupon_rate + params.face_value) * (1 / (1 + y))
          / (1 + y)) := by
  simp [calculate_npv_derivative, derivLoop, n_payments, cash_flow, coupon_amount,
    discount_rate, hm, hf]

end OnePeriod

section Solver3
variable {K : Type} [LinearOrderedField K]

/-- An iteration that leaves through the derivative guard. -/
theorem yieldLoop_degenerate (params : BondParams K) (fuel : Nat) (y : K)
    (h1 : ¬|calculate_npv params y| < TOLERANCE)
    (h2 : |calculate_npv_derivative params y| < DBL_EPSILON) :
    yieldLoop params (fuel + 1) y = ⟨YieldExit.degenerate, [y]⟩ := by
  simp only [yieldLoop, fabs_eq_abs, if_neg h1, if_pos h2]

/-- An iteration that leaves through the step-size test. -/
theorem yieldLoop_of_step_small (params : BondParams K) (fuel : Nat) (y : K)
    (h1 : ¬|calculate_npv params y| < TOLERANCE)
    (h2 : ¬|calculate_npv_derivative params y| < DBL_EPSILON)
    (h3 : |calculate_npv params y / calculate_npv_derivative params y| < TOLERANCE) :
    yieldLoop params (fuel + 1) y
      = ⟨YieldExit.stepConverged (clamp_rate params
          (y - calculate_npv params y / calculate_npv_derivative params y)), [y]⟩ := by
  simp only [yieldLoop, fabs_eq_abs, if_neg h1, if_neg h2, if_pos h3]

/-- An iteration that meets no test and goes on with the clamped update. -/
theorem yieldLoop_continue (params : BondParams K) (fuel : Nat) (y : K)
    (h1 : ¬|calculate_npv params y| < TOLERANCE)
    (h2 : ¬|calculate_npv_derivative params y| < DBL_EPSILON)
    (h3 : ¬|calculate_npv params y / calculate_npv_derivative params y| < TOLERANCE) :
    yieldLoop params (fuel + 1) y
      = ⟨(yieldLoop params fuel (clamp_rate params
            (y - calculate_npv params y / calculate_npv_derivative params y))).exit,
          y :: (yieldLoop params fuel (clamp_rate params
            (y - calculate_npv params y / calculate_npv_derivative params y))).evaluated⟩ := by
  simp only [yieldLoop, fabs_eq_abs, if_neg h1, if_neg h2, if_neg h3]

end Solver3

/-- In exact arithmetic the step-size exit gives no bound on the value even when the
update is not clamped: on the validated one-year zero-coupon bond of face value `1e15`
priced at `1e15 - 1e5`, the solver returns `1e-10` through the step-size test of its first
pass, where the exact value is `1e5 / (1e10 + 1)`.  (In double precision values near
`1e15` are multiples of `0.125`, so the computed value at this input is rounded.) -/
theorem step_exit_value_exact_arithmetic :
    validate_params exampleLargeFace = 0 ∧
    (yieldRun exampleLargeFace).exit = YieldExit.stepConverged (1 / 10 ^ 10) ∧
    calculate_yield exampleLargeFace = some (1 / 10 ^ 10) ∧
    ¬ |calculate_npv exampleLargeFace (1 / 10 ^ 10)| < 1 / 10 ^ 6 := by
  have e1 : calculate_npv exampleLargeFace 0 = 10 ^ 5 := by
    rw [calculate_npv_one_period _ rfl rfl]; norm_num [exampleLargeFace]
  have e2 : calculate_npv_derivative exampleLargeFace 0 = -10 ^ 15 := by
    rw [calculate_npv_derivative_one_period _ rfl rfl]; norm_num [exampleLargeFace]
  have hrun : yieldRun exampleLargeFace
      = ⟨YieldExit.stepConverged (1 / 10 ^ 10), [0]⟩ := by
    unfold yieldRun MAX_ITERATIONS
    rw [show exampleLargeFace.coupon_rate = 0 from rfl,
      yieldLoop_of_step_small exampleLargeFace 99 0
        (by rw [e1]; norm_num [TOLERANCE, abs_lt])
        (by rw [e2]; norm_num [DBL_EPSILON, abs_lt])
        (by rw [e1, e2]; norm_num [TOLERANCE, abs_lt])]
    rw [e1, e2]
    norm_num [clamp_rate, rate_floor, exampleLargeFace]
  refine ⟨(validate_params_eq_zero_iff _).mpr (by norm_num [exampleLargeFace]),
    by rw [hrun], by rw [calculate_yield, hrun]; rfl, ?_⟩
  rw [calculate_npv_one_period _ rfl rfl]
  norm_num [exampleLargeFace, abs_lt]
section Solver4
variable {K : Type} [LinearOrderedField K]

/-- What the two convergence exits of the loop of `calculate_yield` establish. -/
theorem yieldLoop_exit_spec (params : BondParams K) (fuel : Nat) :
    ∀ y r : K,
      ((yieldLoop params fuel y).exit = YieldExit.npvConverged r →
        r ∈ (yieldLoop params fuel y).evaluated ∧ |calculate_npv params r| < TOLERANCE) ∧
      ((yieldLoop params fuel y).exit = YieldExit.stepConverged r →
        ∃ z, (yieldLoop params fuel y).evaluated.getLast? = some z ∧
          |calculate_npv params z / calculate_npv_derivative params z| < TOLERANCE ∧
          r = clamp_rate params
            (z - calculate_npv params z / calculate_npv_derivative params z)) := by
  induction fuel with
  | zero =>
    intro y r
    simp only [yieldLoop]
    exact ⟨fun h => YieldExit.noConfusion h, fun h => YieldExit.noConfusion h⟩
  | succ fuel ih =>
    intro y r
    by_cases h1 : |calculate_npv params y| < TOLERANCE
    · rw [yieldLoop_of_npv_small params fuel y h1]
      refine ⟨fun h => ?_, fun h => YieldExit.noConfusion h⟩
      obtain rfl : y = r := YieldExit.npvConverged.inj h
      exact ⟨List.mem_singleton.mpr rfl, h1⟩
    · by_cases h2 : |calculate_npv_derivative params y| < DBL_EPSILON
      · rw [yieldLoop_degenerate params fuel y h1 h2]
        exact ⟨fun h => YieldExit.noConfusion h, fun h => YieldExit.noConfusion h⟩
      · by_cases h3 : |calculate_npv params y / calculate_npv_derivative params y| < TOLERANCE
        · rw [yieldLoop_of_step_small params fuel y h1 h2 h3]
          refine ⟨fun h => YieldExit.noConfusion h, fun h => ?_⟩
          exact ⟨y, rfl, h3, (YieldExit.stepConverged.inj h).symm⟩
        · rw [yieldLoop_continue params fuel y h1 h2 h3]
          obtain ⟨ha, hb⟩ := ih (clamp_rate params
            (y - calculate_npv params y / calculate_npv_derivative params y)) r
          refine ⟨fun h => ?_, fun h => ?_⟩
          · exact ⟨List.mem_cons_of_mem _ (ha h).1, (ha h).2⟩
          · obtain ⟨z, hz, hz2⟩ := hb h
            refine ⟨z, ?_, hz2⟩
            show (y :: _).getLast? = some z
            rw [List.getLast?_cons, hz]
            rfl

/-- Claim C5, amended. For validated parameters: when `calculate_yield` returns `r`
through its first test, `|calculate_npv params r| < 1e-9`, hence `< 1e-6`; when it
returns `r` through the step-size test, `r` is the clamped update `y - delta` of the
last rate `y` it evaluated, with `|delta| = |npv(y) / derivative(y)| < 1e-9` (the net
present value is not evaluated again at `r`). -/
theorem calculate_yield_npv_root (params : BondParams K)
    (_hv : validate_params params = 0) (r : K) :
    ((yieldRun params).exit = YieldExit.npvConverged r →
      |calculate_npv params r| < 1 / 10 ^ 9 ∧ |calculate_npv params r| < 1 / 10 ^ 6) ∧
    ((yieldRun params).exit = YieldExit.stepConverged r →
      ∃ y, (yieldRun params).evaluated.getLast? = some y ∧
        |calculate_npv params y / calculate_npv_derivative params y| < 1 / 10 ^ 9 ∧
        r = clamp_rate params
          (y - calculate_npv params y / calculate_npv_derivative params y)) := by
  obtain ⟨ha, hb⟩ := yieldLoop_exit_spec params MAX_ITERATIONS params.coupon_rate r
  refine ⟨fun h => ?_, fun h => hb h⟩
  have h9 : |calculate_npv params r| < 1 / 10 ^ 9 := (ha h).2
  exact ⟨h9, lt_trans h9 (by norm_num)⟩

end Solver4

/-- The run of the solver on the par bond: one iteration, first test. -/
theorem exampleParBond_run :
    yieldRun (exampleParBond ℚ) = ⟨YieldExit.npvConverged (1 / 20), [1 / 20]⟩ := by
  unfold yieldRun MAX_ITERATIONS
  rw [show (exampleParBond ℚ).coupon_rate = 1 / 20 from rfl]
  refine yieldLoop_of_npv_small _ 99 _ ?_
  norm_num [calculate_npv, npvLoop, n_payments, cash_flow, coupon_amount, discount_rate,
    exampleParBond, TOLERANCE]

/-- Witness of claim C5 (amended) at the par bond, which returns through the first
test. -/
theorem calculate_yield_npv_root_witness :
    validate_params (exampleParBond ℚ) = 0 ∧
    |calculate_npv (exampleParBond ℚ) (1 / 20)| < 1 / 10 ^ 6 :=
  ⟨(validate_params_eq_zero_iff _).mpr (by norm_num [exampleParBond]),
    ((calculate_yield_npv_root (exampleParBond ℚ)
      ((validate_params_eq_zero_iff _).mpr (by norm_num [exampleParBond])) (1 / 20)).1
      (by rw [exampleParBond_run])).2⟩
section Monotone
variable {K : Type} [LinearOrderedField K]

/-- On validated parameters the coupon per period is not negative. -/
theorem coupon_amount_nonneg (params : BondParams K) (hv : validate_params params = 0) :
    0 ≤ coupon_amount params := by
  obtain ⟨-, hF, hc, -, ⟨hf, -⟩⟩ := (validate_params_eq_zero_iff params).mp hv
  have hf0 : (0 : K) < (params.frequency : K) := by
    exact_mod_cast (by omega : 0 < params.frequency)
  unfold coupon_amount
  positivity

/-- On validated parameters no cash flow is negative. -/
theorem cash_flow_nonneg (params : BondParams K) (hv : validate_params params = 0)
    (i : Nat) : 0 ≤ cash_flow params i := by
  obtain ⟨-, hF, -, -, -⟩ := (validate_params_eq_zero_iff params).mp hv
  have hc := coupon_amount_nonneg params hv
  unfold cash_flow
  split_ifs
  · exact add_nonneg hc hF.le
  · exact hc

/-- The discount base grows with the rate. -/
theorem discount_rate_mono (params : BondParams K) (hv : validate_params params = 0)
    {y z : K} (h : y ≤ z) : discount_rate params y ≤ discount_rate params z := by
  obtain ⟨-, -, -, -, ⟨hf, -⟩⟩ := (validate_params_eq_zero_iff params).mp hv
  have hf0 : (0 : K) < (params.frequency : K) := by
    exact_mod_cast (by omega : 0 < params.frequency)
  unfold discount_rate
  have := div_le_div_of_nonneg_right h hf0.le
  linarith

/-- On the domain where the discount base is positive, the net present value does not
increase with the rate. -/
theorem calculate_npv_antitone (params : BondParams K) (hv : validate_params params = 0)
    {y z : K} (hy : 0 < discount_rate params y) (h : y ≤ z) :
    calculate_npv params z ≤ calculate_npv params y := by
  have hd := discount_rate_mono params hv h
  have hz : 0 < discount_rate params z := lt_of_lt_of_le hy hd
  unfold calculate_npv
  rw [npvLoop_snd, npvLoop_snd]
  refine sub_le_sub_right (Finset.sum_le_sum fun i _ => ?_) _
  refine mul_le_mul_of_nonneg_left ?_ (cash_flow_nonneg params hv i)
  exact pow_le_pow_left₀ (by positivity) (one_div_le_one_div_of_le hy hd) i

/-- The valuator depends on the price only through the final subtraction. -/
theorem calculate_npv_with_price (params : BondParams K) (price2 y : K) :
    calculate_npv { params with price := price2 } y
      = calculate_npv params y + params.price - price2 := by
  have h : ∀ k, npvLoop { params with price := price2 } y k = npvLoop params y k := by
    intro k
    induction k with
    | zero => rfl
    | succ k ih => simp only [npvLoop, ih]; rfl
  unfold calculate_npv
  rw [h]
  show (npvLoop params y (n_payments params).toNat).2 - price2 = _
  ring

/-- A rate returned by the solver is in the domain of the valuator. -/
theorem discount_rate_pos_of_exit (params : BondParams K)
    (hv : validate_params params = 0) (r : K)
    (h : (yieldRun params).exit.value = some r) : 0 < discount_rate params r :=
  discount_rate_pos_of_floor_le params hv r
    ((yieldLoop_floor params MAX_ITERATIONS params.coupon_rate
      (rate_floor_le_coupon_rate params hv)).2.1 r h)

/-- A run that leaves through the first test returns a rate whose net present value is
within the tolerance. -/
theorem yieldRun_npvConverged (params : BondParams K) (r : K)
    (h : (yieldRun params).exit = YieldExit.npvConverged r) :
    |calculate_npv params r| < 1 / 10 ^ 9 :=
  ((yieldLoop_exit_spec params MAX_ITERATIONS params.coupon_rate r).1 h).2

/-- Claim C6, amended. For two validated parameter sets that differ only in price, with
`price2 >= price1 + 2e-9`, on which `calculate_yield` returns through its first test
(`|npv| < 1e-9`), the rate returned for `price2` is strictly smaller than the rate
returned for `price1`. -/
theorem calculate_yield_decreasing_in_price (params : BondParams K) (price2 r1 r2 : K)
    (hv1 : validate_params params = 0)
    (_hv2 : validate_params { params with price := price2 } = 0)
    (hprice : params.price + 2 / 10 ^ 9 ≤ price2)
    (h1 : (yieldRun params).exit = YieldExit.npvConverged r1)
    (h2 : (yieldRun { params with price := price2 }).exit = YieldExit.npvConverged r2) :
    r2 < r1 := by
  have hn1 : |calculate_npv params r1| < 1 / 10 ^ 9 :=
    yieldRun_npvConverged params r1 h1
  have hn2 : |calculate_npv { params with price := price2 } r2| < 1 / 10 ^ 9 :=
    yieldRun_npvConverged _ r2 h2
  rw [calculate_npv_with_price] at hn2
  rw [abs_lt] at hn1 hn2
  by_contra hle
  have hdom : 0 < discount_rate params r1 :=
    discount_rate_pos_of_exit params hv1 r1 (by rw [h1]; rfl)
  have := calculate_npv_antitone params hv1 hdom (not_lt.mp hle)
  linarith [hn1.2, hn2.1]

end Monotone

/-- The run of the solver on the bond priced `5e-10` above par: one iteration, first
test. -/
theorem exampleJustAbovePar_run :
    yieldRun exampleJustAbovePar = ⟨YieldExit.npvConverged (1 / 20), [1 / 20]⟩ := by
  unfold yieldRun MAX_ITERATIONS
  rw [show exampleJustAbovePar.coupon_rate = 1 / 20 from rfl]
  refine yieldLoop_of_npv_small _ 99 _ ?_
  rw [calculate_npv_one_period _ rfl rfl]
  norm_num [exampleJustAbovePar, exampleParBond, TOLERANCE, abs_lt]

/-- Claim C6, counterexample. The par bond (price 100) and the same bond priced at
`100 + 5e-10` are both validated and differ only in price, yet `calculate_yield` returns
the same rate `0.05` for both: the residual `-5e-10` of the dearer bond already passes
the first test at the seed. -/
theorem calculate_yield_strictly_decreasing_counterexample :
    validate_params (exampleParBond ℚ) = 0 ∧
    validate_params exampleJustAbovePar = 0 ∧
    exampleJustAbovePar = { exampleParBond ℚ with price := exampleJustAbovePar.price } ∧
    (exampleParBond ℚ).price < exampleJustAbovePar.price ∧
    calculate_yield (exampleParBond ℚ) = some (1 / 20) ∧
    calculate_yield exampleJustAbovePar = some (1 / 20) := by
  refine ⟨(validate_params_eq_zero_iff _).mpr (by norm_num [exampleParBond]),
    (validate_params_eq_zero_iff _).mpr (by norm_num [exampleJustAbovePar, exampleParBond]),
    rfl, by norm_num [exampleJustAbovePar, exampleParBond], ?_, ?_⟩
  · rw [calculate_yield, exampleParBond_run]; rfl
  · rw [calculate_yield, exampleJustAbovePar_run]; rfl

/-- The run of the solver on the bond priced `1e-6` above par: a full Newton step, then
the first test. -/
theorem exampleAbovePar_run :
    (yieldRun exampleAbovePar).exit = YieldExit.npvConverged (99999979 / 2000000000) := by
  have e1 : calculate_npv exampleAbovePar (1 / 20) = -1 / 10 ^ 6 := by
    rw [calculate_npv_one_period _ rfl rfl]; norm_num [exampleAbovePar, exampleParBond]
  have e2 : calculate_npv_derivative exampleAbovePar (1 / 20) = -(2000 / 21) := by
    rw [calculate_npv_derivative_one_period _ rfl rfl]
    norm_num [exampleAbovePar, exampleParBond]
  unfold yieldRun MAX_ITERATIONS
  rw [show exampleAbovePar.coupon_rate = 1 / 20 from rfl,
    yieldLoop_continue exampleAbovePar 99 (1 / 20)
      (by rw [e1]; norm_num [TOLERANCE, abs_lt])
      (by rw [e2]; norm_num [DBL_EPSILON, abs_lt])
      (by rw [e1, e2]; norm_num [TOLERANCE, abs_lt])]
  simp only [e1, e2]
  have e3 : clamp_rate exampleAbovePar (1 / 20 - -1 / 10 ^ 6 / -(2000 / 21))
      = 99999979 / 2000000000 := by
    norm_num [clamp_rate, rate_floor, exampleAbovePar, exampleParBond]
  rw [e3, yieldLoop_of_npv_small exampleAbovePar 98 _
    (by rw [calculate_npv_one_period _ rfl rfl]
        norm_num [exampleAbovePar, exampleParBond, TOLERANCE, abs_lt])]

/-- Witness of claim C6 (amended): prices `100` and `100 + 1e-6`. -/
theorem calculate_yield_decreasing_in_price_witness :
    validate_params (exampleParBond ℚ) = 0 ∧
    (exampleParBond ℚ).price + 2 / 10 ^ 9 ≤ 100 + 1 / 10 ^ 6 ∧
    (99999979 / 2000000000 : ℚ) < 1 / 20 :=
  ⟨(validate_params_eq_zero_iff _).mpr (by norm_num [exampleParBond]),
    by norm_num [exampleParBond],
    calculate_yield_decreasing_in_price (exampleParBond ℚ) (100 + 1 / 10 ^ 6) _ _
      ((validate_params_eq_zero_iff _).mpr (by norm_num [exampleParBond]))
      ((validate_params_eq_zero_iff _).mpr (by norm_num [exampleParBond]))
      (by norm_num [exampleParBond])
      (by rw [exampleParBond_run])
      exampleAbovePar_run⟩
section Metrics
variable {K : Type} [LinearOrderedField K]

/-- The discount factor after `k` iterations of the loop of `calculate_bond_metrics`. -/
theorem metricsLoop_discount_factor (params : BondParams K) (y : K) (k : Nat) :
    (metricsLoop params y k).discount_factor = (1 / discount_rate params y) ^ k := by
  induction k with
  | zero => simp [metricsLoop]
  | succ k ih => simp only [metricsLoop, ih, pow_succ]

/-- The accumulator `weighted_time_sum` after `k` iterations. -/
theorem metricsLoop_weighted_time_sum (params : BondParams K) (y : K) (k : Nat) :
    (metricsLoop params y k).weighted_time_sum
      = ∑ i in Finset.Icc 1 k, ((i : K) / (params.frequency : K))
          * (cash_flow params i * (1 / discount_rate params y) ^ i) := by
  induction k with
  | zero => simp [metricsLoop]
  | succ k ih =>
    rw [Finset.sum_Icc_succ_top (by omega)]
    simp only [metricsLoop, ih, metricsLoop_discount_factor, pow_succ]

/-- The accumulator `weighted_time_squared_sum` after `k` iterations. -/
theorem metricsLoop_weighted_time_squared_sum (params : BondParams K) (y : K) (k : Nat) :
    (metricsLoop params y k).weighted_time_squared_sum
      = ∑ i in Finset.Icc 1 k,
          ((i : K) / (params.frequency : K)) * ((i : K) / (params.frequency : K))
            * (cash_flow params i * (1 / discount_rate params y) ^ i) := by
  induction k with
  | zero => simp [metricsLoop]
  | succ k ih =>
    rw [Finset.sum_Icc_succ_top (by omega)]
    simp only [metricsLoop, ih, metricsLoop_discount_factor, pow_succ]

/-- The accumulator `present_value_sum` after `k` iterations is the accumulator of
`calculate_npv`. -/
theorem metricsLoop_present_value_sum (params : BondParams K) (y : K) (k : Nat) :
    (metricsLoop params y k).present_value_sum = (npvLoop params y k).2 := by
  induction k with
  | zero => simp [metricsLoop, npvLoop]
  | succ k ih =>
    simp only [metricsLoop, npvLoop, ih, metricsLoop_discount_factor, npvLoop_fst]

/-- The field `duration` written by `calculate_bond_metrics`. -/
theorem calculate_bond_metrics_duration (params : BondParams K) (y : K)
    (results : BondResults K) :
    (calculate_bond_metrics params y results).duration
      = (metricsLoop params y (n_payments params).toNat).weighted_time_sum
          / params.price := rfl

/-- The field `modified_duration` written by `calculate_bond_metrics`. -/
theorem calculate_bond_metrics_modified_duration (params : BondParams K) (y : K)
    (results : BondResults K) :
    (calculate_bond_metrics params y results).modified_duration
      = (calculate_bond_metrics params y results).duration / discount_rate params y := rfl

/-- With a positive discount base the weighted sum of present values is not negative. -/
theorem weighted_time_sum_nonneg (params : BondParams K) (hv : validate_params params = 0)
    (y : K) (hy : 0 < discount_rate params y) (k : Nat) :
    0 ≤ (metricsLoop params y k).weighted_time_sum := by
  obtain ⟨-, -, -, -, ⟨hf, -⟩⟩ := (validate_params_eq_zero_iff params).mp hv
  have hf0 : (0 : K) < (params.frequency : K) := by
    exact_mod_cast (by omega : 0 < params.frequency)
  rw [metricsLoop_weighted_time_sum]
  refine Finset.sum_nonneg fun i _ => ?_
  have := cash_flow_nonneg params hv i
  positivity

/-- With a positive discount base `duration` is not negative. -/
theorem duration_nonneg (params : BondParams K) (hv : validate_params params = 0)
    (y : K) (hy : 0 < discount_rate params y) (results : BondResults K) :
    0 ≤ (calculate_bond_metrics params y results).duration := by
  obtain ⟨hP, -, -, -, -⟩ := (validate_params_eq_zero_iff params).mp hv
  rw [calculate_bond_metrics_duration]
  exact div_nonneg (weighted_time_sum_nonneg params hv y hy _) hP.le

/-- At a rate that is not negative the discount base is at least one. -/
theorem one_le_discount_rate (params : BondParams K) (hv : validate_params params = 0)
    (y : K) (hy : 0 ≤ y) : 1 ≤ discount_rate params y := by
  obtain ⟨-, -, -, -, ⟨hf, -⟩⟩ := (validate_params_eq_zero_iff params).mp hv
  have hf0 : (0 : K) < (params.frequency : K) := by
    exact_mod_cast (by omega : 0 < params.frequency)
  unfold discount_rate
  have : 0 ≤ y / (params.frequency : K) := div_nonneg hy hf0.le
  linarith

/-- At a rate that is not negative, modified duration is at most Macaulay duration. -/
theorem modified_duration_le_duration (params : BondParams K)
    (hv : validate_params params = 0) (y : K) (hy : 0 ≤ y) (results : BondResults K) :
    (calculate_bond_metrics params y results).modified_duration
      ≤ (calculate_bond_metrics params y results).duration := by
  have h1 := one_le_discount_rate params hv y hy
  rw [calculate_bond_metrics_modified_duration]
  exact div_le_self (duration_nonneg params hv y (lt_of_lt_of_le one_pos h1) results) h1

/-- Claim C8, amended. For validated parameters on which `calculate_yield` returns a rate
`r >= 0`, the metrics written by `calculate_bond_metrics params r` satisfy
`modified_duration <= duration`. -/
theorem modified_duration_le_duration_of_yield (params : BondParams K)
    (hv : validate_params params = 0) (r : K) (_hr : calculate_yield params = some r)
    (hpos : 0 ≤ r) (results : BondResults K) :
    (calculate_bond_metrics params r results).modified_duration
      ≤ (calculate_bond_metrics params r results).duration :=
  modified_duration_le_duration params hv r hpos results

/-- The metrics of a bond with a single payment. -/
theorem calculate_bond_metrics_one_period (params : BondParams K)
    (hm : params.maturity = 1) (hf : params.frequency = 1) (y : K)
    (results : BondResults K) :
    (calculate_bond_metrics params y results).duration
        = (params.face_value * params.coupon_rate + params.face_value) * (1 / (1 + y))
          / params.price ∧
      (calculate_bond_metrics params y results).modified_duration
        = (params.face_value * params.coupon_rate + params.face_value) * (1 / (1 + y))
          / params.price / (1 + y) := by
  constructor <;>
  simp [calculate_bond_metrics, metricsLoop, n_payments, cash_flow, coupon_amount,
    discount_rate, hm, hf]

end Metrics

/-- The run of the solver on the zero-coupon bond priced above par: one iteration,
step-size test, negative rate. -/
theorem exampleZeroCouponAbovePar_run :
    yieldRun exampleZeroCouponAbovePar
      = ⟨YieldExit.stepConverged (-(1 / 10 ^ 10)), [0]⟩ := by
  have e1 : calculate_npv exampleZeroCouponAbovePar 0 = -(1 / 10 ^ 8) := by
    rw [calculate_npv_one_period _ rfl rfl]; norm_num [exampleZeroCouponAbovePar]
  have e2 : calculate_npv_derivative exampleZeroCouponAbovePar 0 = -100 := by
    rw [calculate_npv_derivative_one_period _ rfl rfl]
    norm_num [exampleZeroCouponAbovePar]
  unfold yieldRun MAX_ITERATIONS
  rw [show exampleZeroCouponAbovePar.coupon_rate = 0 from rfl,
    yieldLoop_of_step_small exampleZeroCouponAbovePar 99 0
      (by rw [e1]; norm_num [TOLERANCE, abs_lt])
      (by rw [e2]; norm_num [DBL_EPSILON, abs_lt])
      (by rw [e1, e2]; norm_num [TOLERANCE, abs_lt])]
  rw [e1, e2]
  norm_num [clamp_rate, rate_floor, exampleZeroCouponAbovePar]

/-- Claim C8, counterexample. On the validated one-year zero-coupon bond of face value
100 priced at `100.00000001`, `calculate_yield` returns the negative rate `-1e-10`, the
discount base is below one, and `modified_duration` exceeds `duration`. -/
theorem modified_duration_le_duration_counterexample :
    validate_params exampleZeroCouponAbovePar = 0 ∧
    calculate_yield exampleZeroCouponAbovePar = some (-(1 / 10 ^ 10)) ∧
    ¬ (calculate_bond_metrics exampleZeroCouponAbovePar (-(1 / 10 ^ 10))
          (zeroResults ℚ)).modified_duration
        ≤ (calculate_bond_metrics exampleZeroCouponAbovePar (-(1 / 10 ^ 10))
          (zeroResults ℚ)).duration := by
  refine ⟨(validate_params_eq_zero_iff _).mpr (by norm_num [exampleZeroCouponAbovePar]),
    by rw [calculate_yield, exampleZeroCouponAbovePar_run]; rfl, ?_⟩
  obtain ⟨hd, hm⟩ := calculate_bond_metrics_one_period exampleZeroCouponAbovePar rfl rfl
    (-(1 / 10 ^ 10)) (zeroResults ℚ)
  rw [hd, hm]
  norm_num [exampleZeroCouponAbovePar]

/-- Witness of claim C8 (amended) at the par bond, solved rate 5%. -/
theorem modified_duration_le_duration_of_yield_witness :
    validate_params (exampleParBond ℚ) = 0 ∧
    calculate_yield (exampleParBond ℚ) = some (1 / 20) ∧
    (0 : ℚ) ≤ 1 / 20 ∧
    (calculate_bond_metrics (exampleParBond ℚ) (1 / 20) (zeroResults ℚ)).modified_duration
      ≤ (calculate_bond_metrics (exampleParBond ℚ) (1 / 20) (zeroResults ℚ)).duration :=
  ⟨(validate_params_eq_zero_iff _).mpr (by norm_num [exampleParBond]),
    by rw [calculate_yield, exampleParBond_run]; rfl,
    by norm_num,
    modified_duration_le_duration_of_yield (exampleParBond ℚ)
      ((validate_params_eq_zero_iff _).mpr (by norm_num [exampleParBond])) (1 / 20)
      (by rw [calculate_yield, exampleParBond_run]; rfl) (by norm_num) (zeroResults ℚ)⟩
section DurationBound
variable {K : Type} [LinearOrderedField K]

/-- The value at rate zero: all cash flows undiscounted, less the price. -/
theorem calculate_npv_zero (params : BondParams K) (hv : validate_params params = 0) :
    calculate_npv params 0
      = coupon_amount params * (((n_payments params).toNat : Nat) : K)
        + params.face_value - params.price := by
  unfold calculate_npv
  rw [npvLoop_snd, cash_flow_sum params hv]
  simp [discount_rate]

/-- A coupon-bearing bond priced at or below par has a positive value at rate zero. -/
theorem calculate_npv_zero_pos (params : BondParams K) (hv : validate_params params = 0)
    (hc : 0 < params.coupon_rate) (hp : params.price ≤ params.face_value) :
    0 < calculate_npv params 0 := by
  obtain ⟨-, hF, -, -, ⟨hf, -⟩⟩ := (validate_params_eq_zero_iff params).mp hv
  have hf0 : (0 : K) < (params.frequency : K) := by
    exact_mod_cast (by omega : 0 < params.frequency)
  have hn : (0 : K) < (((n_payments params).toNat : Nat) : K) := by
    have := n_payments_pos params hv
    exact_mod_cast (by omega : 0 < (n_payments params).toNat)
  have hca : 0 < coupon_amount params := by unfold coupon_amount; positivity
  rw [calculate_npv_zero params hv]
  nlinarith [mul_pos hca hn]

end DurationBound

section ZeroCoupon
variable {K : Type} [LinearOrderedField K]

/-- The clamp leaves a rate that is not negative unchanged. -/
theorem clamp_rate_of_nonneg (params : BondParams K) (hv : validate_params params = 0)
    (u : K) (hu : 0 ≤ u) : clamp_rate params u = u := by
  obtain ⟨-, -, -, -, ⟨hf, -⟩⟩ := (validate_params_eq_zero_iff params).mp hv
  have hf0 : (0 : K) < (params.frequency : K) := by
    exact_mod_cast (by omega : 0 < params.frequency)
  have hfl : rate_floor params ≤ 0 := by
    unfold rate_floor
    exact div_nonpos_of_nonpos_of_nonneg (by norm_num) hf0.le
  unfold clamp_rate
  rw [if_neg (not_lt.mpr (le_trans hfl hu))]

end ZeroCoupon

/-- The arithmetic of one Newton step on `u ↦ 4 * B * B / u - 1` while `1 ≤ u ≤ B`. -/
theorem deep_discount_step (B u : ℚ) (hB1 : 1 ≤ B) (hu1 : 1 ≤ u) (hU : u ≤ B) :
    3 ≤ 4 * B * B * (1 / u) - 1 ∧
    1 ≤ 4 * B * B * (1 / u) / u ∧
    (4 * B * B * (1 / u) - 1) / -(4 * B * B * (1 / u) / u)
      = -(u * (1 - u / (4 * B * B))) ∧
    3 / 4 ≤ u * (1 - u / (4 * B * B)) ∧
    u * (1 - u / (4 * B * B)) ≤ u := by
  have hu0 : 0 < u := by linarith
  have hB0 : 0 < B := by linarith
  have hq : 4 * B ≤ 4 * B * B * (1 / u) := by
    rw [mul_one_div, le_div_iff₀ hu0]
    nlinarith
  have hq2 : 1 ≤ 4 * B * B * (1 / u) / u := by
    rw [le_div_iff₀ hu0, one_mul]
    nlinarith
  have hfrac0 : 0 ≤ u / (4 * B * B) := by positivity
  have hfrac : u / (4 * B * B) ≤ 1 / 4 := by
    rw [div_le_div_iff₀ (by positivity) (by norm_num)]
    nlinarith
  refine ⟨by linarith, hq2, ?_, by nlinarith, by nlinarith⟩
  field_simp
  ring

/-- On the deep-discount bond the loop of `calculate_yield` uses every iteration it is
given, as long as the discount base has not passed `2^99`. -/
theorem exampleDeepDiscount_loop (fuel : Nat) :
    ∀ (k : Nat) (y : ℚ), fuel + k ≤ 100 → 0 ≤ y → 1 + y ≤ 2 ^ k →
      ∃ r, (yieldLoop exampleDeepDiscount fuel y).exit = YieldExit.exhausted r := by
  induction fuel with
  | zero => intro k y _ _ _; exact ⟨y, rfl⟩
  | succ fuel ih =>
    intro k y hk hy hu
    have hk99 : k ≤ 99 := by omega
    have hU : 1 + y ≤ 2 ^ 99 :=
      le_trans hu (pow_le_pow_right₀ (by norm_num) hk99)
    have e1 : calculate_npv exampleDeepDiscount y = 2 ^ 200 * (1 / (1 + y)) - 1 := by
      rw [calculate_npv_one_period _ rfl rfl]
      simp only [exampleDeepDiscount, mul_zero, zero_add]
    have e2 : calculate_npv_derivative exampleDeepDiscount y
        = -(2 ^ 200 * (1 / (1 + y)) / (1 + y)) := by
      rw [calculate_npv_derivative_one_period _ rfl rfl]
      simp only [exampleDeepDiscount, mul_zero, zero_add]
    have hv : validate_params exampleDeepDiscount = 0 :=
      (validate_params_eq_zero_iff _).mpr
        ⟨one_pos, by unfold exampleDeepDiscount; positivity, le_refl _,
          ⟨le_refl _, by decide⟩, ⟨le_refl _, by decide⟩⟩
    have hF : (2 : ℚ) ^ 200 = 4 * 2 ^ 99 * 2 ^ 99 := by ring
    rw [hF] at e1 e2
    obtain ⟨s1, s2, s3, s4, s5⟩ := deep_discount_step (2 ^ 99) (1 + y)
      (one_le_pow₀ (by norm_num)) (le_add_of_nonneg_right hy) hU
    have htol : (TOLERANCE : ℚ) ≤ 3 / 4 := by norm_num [TOLERANCE]
    have heps : (DBL_EPSILON : ℚ) ≤ 1 := by
      unfold DBL_EPSILON
      rw [div_le_one (by positivity)]
      exact one_le_pow₀ (by norm_num)
    have e3 : calculate_npv exampleDeepDiscount y
        / calculate_npv_derivative exampleDeepDiscount y
        = -((1 + y) * (1 - (1 + y) / (4 * 2 ^ 99 * 2 ^ 99))) := by rw [e1, e2, s3]
    clear hF hU s3
    generalize (4 : ℚ) * 2 ^ 99 * 2 ^ 99 * (1 / (1 + y)) = a at e1 e2 s1 s2
    generalize (1 + y) * (1 - (1 + y) / (4 * 2 ^ 99 * 2 ^ 99)) = d at e3 s4 s5
    have h1 : ¬|calculate_npv exampleDeepDiscount y| < TOLERANCE := by
      rw [e1, not_lt, abs_of_nonneg (by linarith)]
      linarith
    have h2 : ¬|calculate_npv_derivative exampleDeepDiscount y| < DBL_EPSILON := by
      rw [e2, not_lt, abs_neg, abs_of_nonneg (by linarith)]
      linarith
    have h3 : ¬|calculate_npv exampleDeepDiscount y
        / calculate_npv_derivative exampleDeepDiscount y| < TOLERANCE := by
      rw [e3, not_lt, abs_neg, abs_of_nonneg (by linarith)]
      linarith
    rw [yieldLoop_continue exampleDeepDiscount fuel y h1 h2 h3, e3]
    have hy2 : 0 ≤ y - -d := by linarith
    rw [clamp_rate_of_nonneg exampleDeepDiscount hv _ hy2]
    refine ih (k + 1) _ (by omega) hy2 ?_
    rw [pow_succ]
    linarith

/-- The solver exhausts its iteration budget on a validated zero-coupon bond priced below
par. -/
theorem calculate_yield_zero_coupon_exhausts :
    validate_params exampleDeepDiscount = 0 ∧
    exampleDeepDiscount.coupon_rate = 0 ∧
    exampleDeepDiscount.price < exampleDeepDiscount.face_value ∧
    ∃ r, (yieldRun exampleDeepDiscount).exit = YieldExit.exhausted r :=
  ⟨(validate_params_eq_zero_iff _).mpr
      ⟨one_pos, by unfold exampleDeepDiscount; positivity, le_refl _,
        ⟨le_refl _, by decide⟩, ⟨le_refl _, by decide⟩⟩,
    rfl, one_lt_pow₀ (by norm_num) (by norm_num),
    exampleDeepDiscount_loop 100 0 0 (by omega) (le_refl 0) (by norm_num)⟩

/-- The clamp invariant at the bond priced `1e-6` above par, whose solve takes two
iterations. -/
theorem calculate_yield_clamp_invariant_witness :
    validate_params exampleAbovePar = 0 ∧
    (yieldRun exampleAbovePar).evaluated.length ≤ 100 :=
  ⟨(validate_params_eq_zero_iff _).mpr (by norm_num [exampleAbovePar, exampleParBond]),
    (calculate_yield_clamp_invariant exampleAbovePar
      ((validate_params_eq_zero_iff _).mpr
        (by norm_num [exampleAbovePar, exampleParBond]))).2.2⟩

/-! ## The outcomes of the solver -/

/-- The failure value is returned at the derivative guard and nowhere else. -/
theorem value_eq_none_iff {K : Type} (e : YieldExit K) :
    e.value = none ↔ e = YieldExit.degenerate := by
  cases e <;> simp [YieldExit.value]

section Outcomes
variable {K : Type} [LinearOrderedField K]

/-- An iteration that meets no test goes on with the update. -/
theorem yieldLoop_of_no_test_met (params : BondParams K) (fuel : Nat) (y : K)
    (h : no_test_met params y) :
    (yieldLoop params (fuel + 1) y).exit
      = (yieldLoop params fuel (newton_update params y)).exit := by
  rw [yieldLoop_continue params fuel y h.1 h.2.1 h.2.2]
  rfl

/-- The loop of `calculate_yield` ends at the derivative guard exactly when some pass,
reached through passes that met no test, finds the value outside the tolerance and the
derivative below `DBL_EPSILON`. -/
theorem yieldLoop_degenerate_iff (params : BondParams K) (fuel : Nat) :
    ∀ y : K, (yieldLoop params fuel y).exit = YieldExit.degenerate ↔
      ∃ k, k < fuel ∧
        (∀ j, j < k → no_test_met params ((newton_update params)^[j] y)) ∧
        ¬|calculate_npv params ((newton_update params)^[k] y)| < TOLERANCE ∧
        |calculate_npv_derivative params ((newton_update params)^[k] y)| < DBL_EPSILON := by
  induction fuel with
  | zero =>
    intro y
    simp only [yieldLoop]
    exact ⟨fun h => YieldExit.noConfusion h, fun ⟨k, hk, _⟩ => absurd hk (Nat.not_lt_zero k)⟩
  | succ fuel ih =>
    intro y
    by_cases hcont : no_test_met params y
    · rw [yieldLoop_of_no_test_met params fuel y hcont, ih]
      constructor
      · rintro ⟨k, hk, hall, hn, hd⟩
        refine ⟨k + 1, by omega, fun j hj => ?_, ?_, ?_⟩
        · cases j with
          | zero => exact hcont
          | succ j =>
            rw [Function.iterate_succ_apply]
            exact hall j (by omega)
        · rw [Function.iterate_succ_apply]; exact hn
        · rw [Function.iterate_succ_apply]; exact hd
      · rintro ⟨k, hk, hall, hn, hd⟩
        cases k with
        | zero => exact absurd hd hcont.2.1
        | succ k =>
          refine ⟨k, by omega, fun j hj => ?_, ?_, ?_⟩
          · have := hall (j + 1) (by omega)
            rwa [Function.iterate_succ_apply] at this
          · rwa [Function.iterate_succ_apply] at hn
          · rwa [Function.iterate_succ_apply] at hd
    · -- the pass at `y` returns: only the derivative guard gives the failure value
      have hk0 : ∀ k, (∀ j, j < k → no_test_met params ((newton_update params)^[j] y)) →
          k = 0 := by
        intro k hall
        by_contra hk
        exact hcont (hall 0 (Nat.pos_of_ne_zero hk))
      by_cases h1 : |calculate_npv params y| < TOLERANCE
      · rw [yieldLoop_of_npv_small params fuel y h1]
        refine ⟨fun h => YieldExit.noConfusion h, ?_⟩
        rintro ⟨k, -, hall, hn, -⟩
        obtain rfl := hk0 k hall
        exact absurd h1 hn
      · by_cases h2 : |calculate_npv_derivative params y| < DBL_EPSILON
        · rw [yieldLoop_degenerate params fuel y h1 h2]
          exact ⟨fun _ => ⟨0, by omega, fun j hj => absurd hj (Nat.not_lt_zero j), h1, h2⟩,
            fun _ => rfl⟩
        · have h3 : |calculate_npv params y / calculate_npv_derivative params y|
              < TOLERANCE := by
            by_contra h3
            exact hcont ⟨h1, h2, h3⟩
          rw [yieldLoop_of_step_small params fuel y h1 h2 h3]
          refine ⟨fun h => YieldExit.noConfusion h, ?_⟩
          rintro ⟨k, -, hall, -, hd⟩
          obtain rfl := hk0 k hall
          exact absurd hd h2

/-- When no pass meets a test the loop uses all its iterations and returns the rate
after the last update and clamp. -/
theorem yieldLoop_exhausted (params : BondParams K) (fuel : Nat) :
    ∀ y : K, (∀ k, k < fuel → no_test_met params ((newton_update params)^[k] y)) →
      (yieldLoop params fuel y).exit
        = YieldExit.exhausted ((newton_update params)^[fuel] y) := by
  induction fuel with
  | zero => intro y _; rfl
  | succ fuel ih =>
    intro y hall
    rw [yieldLoop_of_no_test_met params fuel y (hall 0 (by omega)),
      ih _ (fun k hk => by
        have := hall (k + 1) (by omega)
        rwa [Function.iterate_succ_apply] at this),
      Function.iterate_succ_apply]

/-- The outcomes of the solver on numbers: when the fields are numbers, `calculate_yield`
returns the failure value (`NAN`) exactly when at some iteration `k < 100`, reached
without an earlier return (no test met at the rates after `0, ..., k-1` updates),
`|npv| >= 1e-9` and `|derivative| < DBL_EPSILON`; in every other case it returns a numeric
rate; and when all 100 iterations complete without meeting a test, the rate returned is
the rate after the 100th update and clamp.  (With a NaN price the value returned after
the loop is NaN: see `calculate_yield_returns_nan_after_loop`.) -/
theorem calculate_yield_outcomes (params : BondParams K) :
    (calculate_yield params = none ↔
      ∃ k, k < 100 ∧
        (∀ j, j < k → no_test_met params (rate_after_updates params j)) ∧
        ¬|calculate_npv params (rate_after_updates params k)| < 1 / 10 ^ 9 ∧
        |calculate_npv_derivative params (rate_after_updates params k)| < DBL_EPSILON) ∧
    ((¬∃ k, k < 100 ∧
        (∀ j, j < k → no_test_met params (rate_after_updates params j)) ∧
        ¬|calculate_npv params (rate_after_updates params k)| < 1 / 10 ^ 9 ∧
        |calculate_npv_derivative params (rate_after_updates params k)| < DBL_EPSILON) →
      ∃ r, calculate_yield params = some r) ∧
    ((∀ k, k < 100 → no_test_met params (rate_after_updates params k)) →
      (yieldRun params).exit = YieldExit.exhausted (rate_after_updates params 100) ∧
      calculate_yield params = some (rate_after_updates params 100)) := by
  have hiff : calculate_yield params = none ↔
      ∃ k, k < 100 ∧
        (∀ j, j < k → no_test_met params (rate_after_updates params j)) ∧
        ¬|calculate_npv params (rate_after_updates params k)| < 1 / 10 ^ 9 ∧
        |calculate_npv_derivative params (rate_after_updates params k)| < DBL_EPSILON := by
    rw [calculate_yield, value_eq_none_iff]
    exact yieldLoop_degenerate_iff params MAX_ITERATIONS params.coupon_rate
  refine ⟨hiff, fun hno => ?_, fun hall => ?_⟩
  · cases hy : calculate_yield params with
    | none => exact absurd (hiff.mp hy) hno
    | some r => exact ⟨r, rfl⟩
  · have hex : (yieldRun params).exit
        = YieldExit.exhausted (rate_after_updates params 100) :=
      yieldLoop_exhausted params MAX_ITERATIONS params.coupon_rate hall
    exact ⟨hex, by rw [calculate_yield, hex]; rfl⟩

end Outcomes

/-! ## The risk metrics in closed form -/

section MetricsClosedForm
variable {K : Type} [LinearOrderedField K]

/-- On validated parameters the cash flow of the loops is the cash flow of the
specification, for every period of the schedule. -/
theorem cash_flow_eq_specCashFlow (params : BondParams K)
    (hv : validate_params params = 0) (i : Nat)
    (hi : i ≤ (n_payments params).toNat) : cash_flow params i = specCashFlow params i := by
  have hn := n_payments_toNat params hv
  unfold cash_flow specCashFlow coupon_amount
  unfold n_payments at hn hi ⊢
  by_cases hlt : i < (params.maturity * params.frequency).toNat
  · rw [if_pos hlt, if_neg (by omega)]
  · rw [if_neg hlt, if_pos (by omega)]

/-- The present value accumulated by the loops is the present value of the
specification. -/
theorem present_value_eq_specPresentValue (params : BondParams K)
    (hv : validate_params params = 0) (r : K) (i : Nat)
    (hi : i ≤ (n_payments params).toNat) :
    cash_flow params i * (1 / discount_rate params r) ^ i = specPresentValue params r i := by
  rw [cash_flow_eq_specCashFlow params hv i hi, specPresentValue, zpow_neg, zpow_natCast,
    one_div, inv_pow, discount_rate]

/-- Claim C12. In exact arithmetic, for validated parameters and a rate `r` with
`1 + r/frequency > 0`, `calculate_bond_metrics params r` writes
`duration = (sum_{i=1..n} (i/frequency) * PV_i) / price`,
`modified_duration = duration / (1 + r/frequency)` and
`convexity = (sum_{i=1..n} (i/frequency)^2 * PV_i) / (price * (1 + r/frequency)^2)`,
with `PV_i = cf_i * (1 + r/frequency)^(-i)` over the cash-flow schedule of
`calculate_npv`. -/
theorem calculate_bond_metrics_closed_form (params : BondParams K) (r : K)
    (hv : validate_params params = 0) (_hr : 0 < 1 + r / (params.frequency : K))
    (results : BondResults K) :
    (calculate_bond_metrics params r results).duration = durationClosedForm params r ∧
    (calculate_bond_metrics params r results).modified_duration
      = modifiedDurationClosedForm params r ∧
    (calculate_bond_metrics params r results).convexity = convexityClosedForm params r := by
  have hd : (calculate_bond_metrics params r results).duration
      = durationClosedForm params r := by
    rw [calculate_bond_metrics_duration, metricsLoop_weighted_time_sum, durationClosedForm]
    congr 1
    refine Finset.sum_congr rfl fun i hi => ?_
    rw [present_value_eq_specPresentValue params hv r i (Finset.mem_Icc.mp hi).2]
  refine ⟨hd, ?_, ?_⟩
  · rw [calculate_bond_metrics_modified_duration, hd, modifiedDurationClosedForm,
      discount_rate]
  · show (metricsLoop params r (n_payments params).toNat).weighted_time_squared_sum
        / (params.price * discount_rate params r ^ 2) = convexityClosedForm params r
    have hs : ∑ i in Finset.Icc 1 (n_payments params).toNat,
          ((i : K) / (params.frequency : K)) * ((i : K) / (params.frequency : K))
            * (cash_flow params i * (1 / discount_rate params r) ^ i)
        = ∑ i in Finset.Icc 1 (params.maturity * params.frequency).toNat,
          ((i : K) / (params.frequency : K)) ^ 2 * specPresentValue params r i := by
      refine Finset.sum_congr rfl fun i hi => ?_
      rw [present_value_eq_specPresentValue params hv r i (Finset.mem_Icc.mp hi).2, sq]
    rw [metricsLoop_weighted_time_squared_sum, hs, convexityClosedForm, discount_rate]

/-- Witness of claim C12 at the par bond, rate 5%. -/
theorem calculate_bond_metrics_closed_form_witness :
    validate_params (exampleParBond ℚ) = 0 ∧
    (0 : ℚ) < 1 + (1 / 20) / ((exampleParBond ℚ).frequency : ℚ) ∧
    (calculate_bond_metrics (exampleParBond ℚ) (1 / 20) (zeroResults ℚ)).duration
      = durationClosedForm (exampleParBond ℚ) (1 / 20) ∧
    (calculate_bond_metrics (exampleParBond ℚ) (1 / 20) (zeroResults ℚ)).modified_duration
      = modifiedDurationClosedForm (exampleParBond ℚ) (1 / 20) ∧
    (calculate_bond_metrics (exampleParBond ℚ) (1 / 20) (zeroResults ℚ)).convexity
      = convexityClosedForm (exampleParBond ℚ) (1 / 20) :=
  ⟨(validate_params_eq_zero_iff _).mpr (by norm_num [exampleParBond]),
    by norm_num [exampleParBond],
    calculate_bond_metrics_closed_form (exampleParBond ℚ) (1 / 20)
      ((validate_params_eq_zero_iff _).mpr (by norm_num [exampleParBond]))
      (by norm_num [exampleParBond]) (zeroResults ℚ)⟩

/-- Claim C15. In exact arithmetic, for validated parameters and a rate `r` with
`1 + r/frequency > 0`, the modified duration written by `calculate_bond_metrics params r`
satisfies `modified_duration * price = -calculate_npv_derivative params r`. -/
theorem modified_duration_mul_price (params : BondParams K) (r : K)
    (hv : validate_params params = 0) (_hr : 0 < 1 + r / (params.frequency : K))
    (results : BondResults K) :
    (calculate_bond_metrics params r results).modified_duration * params.price
      = -calculate_npv_derivative params r := by
  obtain ⟨hP, -, -, -, -⟩ := (validate_params_eq_zero_iff params).mp hv
  rw [calculate_bond_metrics_modified_duration, calculate_bond_metrics_duration,
    metricsLoop_weighted_time_sum, calculate_npv_derivative, derivLoop_snd, neg_neg,
    div_right_comm, div_mul_cancel₀ _ hP.ne', Finset.sum_div]
  refine Finset.sum_congr rfl fun i _ => ?_
  rw [div_mul_eq_mul_div, div_div, mul_assoc]

/-- Witness of claim C15 at the par bond, rate 5%. -/
theorem modified_duration_mul_price_witness :
    validate_params (exampleParBond ℚ) = 0 ∧
    (0 : ℚ) < 1 + (1 / 20) / ((exampleParBond ℚ).frequency : ℚ) ∧
    (calculate_bond_metrics (exampleParBond ℚ) (1 / 20) (zeroResults ℚ)).modified_duration
        * (exampleParBond ℚ).price
      = -calculate_npv_derivative (exampleParBond ℚ) (1 / 20) :=
  ⟨(validate_params_eq_zero_iff _).mpr (by norm_num [exampleParBond]),
    by norm_num [exampleParBond],
    modified_duration_mul_price (exampleParBond ℚ) (1 / 20)
      ((validate_params_eq_zero_iff _).mpr (by norm_num [exampleParBond]))
      (by norm_num [exampleParBond]) (zeroResults ℚ)⟩

end MetricsClosedForm

/-! ## After-tax proceeds -/

section PostProcessing
variable {K : Type} [LinearOrderedField K]

/-- Claim C13. Post-processing of after-tax proceeds: with
`totalCoupons = (face_value*coupon_rate/frequency) * (amount/face_value) * (maturity*frequency)`,
`pricePaid = price*amount/100` and `gain = amount - pricePaid`, the statements of `main`
give `total_coupons = totalCoupons` and
`net_total_at_maturity = pricePaid + 0.875*totalCoupons + g`, where `g = 0.875*gain` if
`gain > 0` and `g = gain` otherwise; for price 96.24, coupon 3.15%, 19 years, annual,
face value 100 and amount 10000 this is `total_coupons = 5985` and
`net_total_at_maturity = 15189.875`. -/
theorem main_post_processing_spec :
    (∀ (params : BondParams K) (results : BondResults K),
      (main_post_processing params results).total_coupons
          = (params.face_value * params.coupon_rate / (params.frequency : K))
            * (params.amount / params.face_value)
            * ((params.maturity : K) * (params.frequency : K)) ∧
      (main_post_processing params results).net_total_at_maturity
          = params.price * params.amount / 100
            + (875 / 1000) * ((params.face_value * params.coupon_rate / (params.frequency : K))
              * (params.amount / params.face_value)
              * ((params.maturity : K) * (params.frequency : K)))
            + (if params.amount - params.price * params.amount / 100 > 0
                then (875 / 1000) * (params.amount - params.price * params.amount / 100)
                else params.amount - params.price * params.amount / 100)) ∧
    (main_post_processing exampleTaxBond (zeroResults ℚ)).total_coupons = 5985 ∧
    (main_post_processing exampleTaxBond (zeroResults ℚ)).net_total_at_maturity
      = 15189875 / 1000 := by
  refine ⟨fun params results => ⟨?_, ?_⟩, ?_, ?_⟩
  · simp only [main_post_processing, Int.cast_mul]
    ring
  · simp only [main_post_processing, Int.cast_mul, TAX_RATE]
    split_ifs <;> ring
  · norm_num [main_post_processing, exampleTaxBond]
  · norm_num [main_post_processing, exampleTaxBond, TAX_RATE]

end PostProcessing

/-! ## The valuator is strictly decreasing -/

section StrictlyDecreasing
variable {K : Type} [LinearOrderedField K]

end StrictlyDecreasing

/-! ## Parameters that are not numbers -/

namespace Dbl

variable {K : Type} [LinearOrderedField K]

/-- Addition of numbers. -/
theorem num_add_num (x y : K) : num x + num y = num (x + y) := rfl

/-- Subtraction of numbers. -/
theorem num_sub_num (x y : K) : num x - num y = num (x - y) := rfl

/-- Multiplication of numbers. -/
theorem num_mul_num (x y : K) : num x * num y = num (x * y) := rfl

/-- Division of numbers. -/
theorem num_div_num (x y : K) : num x / num y = num (x / y) := rfl

/-- The absolute value of a number. -/
theorem fabs_num (x : K) : Fabs.fabs (num x) = num |x| := rfl

/-- The absolute value of NaN is NaN. -/
theorem fabs_nan : Fabs.fabs (nan : Dbl K) = nan := rfl

/-- NaN plus anything is NaN. -/
theorem nan_add (a : Dbl K) : nan + a = nan := rfl

/-- Anything plus NaN is NaN. -/
theorem add_nan (a : Dbl K) : a + nan = nan := by cases a <;> rfl

/-- NaN minus anything is NaN. -/
theorem nan_sub (a : Dbl K) : nan - a = nan := rfl

/-- Anything minus NaN is NaN. -/
theorem sub_nan (a : Dbl K) : a - nan = nan := by cases a <;> rfl

/-- NaN times anything is NaN. -/
theorem nan_mul (a : Dbl K) : nan * a = nan := rfl

/-- Anything times NaN is NaN. -/
theorem mul_nan (a : Dbl K) : a * nan = nan := by cases a <;> rfl

/-- NaN divided by anything is NaN. -/
theorem nan_div (a : Dbl K) : nan / a = nan := rfl

/-- Anything divided by NaN is NaN. -/
theorem div_nan (a : Dbl K) : a / nan = nan := by cases a <;> rfl

/-- Numbers compare as numbers. -/
theorem num_lt_num (x y : K) : num x < num y ↔ x < y := Iff.rfl

/-- Numbers compare as numbers, weakly. -/
theorem num_le_num (x y : K) : num x ≤ num y ↔ x ≤ y := Iff.rfl

/-- NaN is below nothing. -/
theorem not_nan_lt (a : Dbl K) : ¬(nan < a) := fun h => h

/-- Nothing is below NaN. -/
theorem not_lt_nan (a : Dbl K) : ¬(a < nan) := by cases a <;> exact fun h => h

/-- NaN is at most nothing. -/
theorem not_nan_le (a : Dbl K) : ¬(nan ≤ a) := fun h => h

/-- Nothing is at most NaN. -/
theorem not_le_nan (a : Dbl K) : ¬(a ≤ nan) := by cases a <;> exact fun h => h

/-- The double zero. -/
theorem zero_eq : (0 : Dbl K) = num 0 := rfl

/-- The double one. -/
theorem one_eq : (1 : Dbl K) = num 1 := rfl

/-- An `int` converted to `double` is a number. -/
theorem intCast_eq (n : Int) : ((n : Int) : Dbl K) = num (n : K) := rfl

/-- A loop index converted to `double` is a number. -/
theorem natCast_eq (n : Nat) : ((n : Nat) : Dbl K) = num (n : K) := rfl

end Dbl

section AnyNumbers

/-- Whatever the numbers are, `validate_params` accepts exactly when none of its five
guards holds. -/
theorem validate_params_eq_zero_iff_guards {D : Type} [Zero D] [LT D] [LE D]
    [∀ a b : D, Decidable (a < b)] [∀ a b : D, Decidable (a ≤ b)]
    (params : BondParams D) :
    validate_params params = 0 ↔
      (¬params.price ≤ 0 ∧ ¬params.face_value ≤ 0 ∧ ¬params.coupon_rate < 0 ∧
        (1 ≤ params.maturity ∧ params.maturity ≤ 100) ∧
        (1 ≤ params.frequency ∧ params.frequency ≤ 12)) := by
  unfold validate_params MAX_MATURITY MAX_FREQUENCY
  constructor
  · intro h
    split_ifs at h with h1 h2 h3 h4 h5
    exact ⟨h1, h2, h3, ⟨by omega, by omega⟩, ⟨by omega, by omega⟩⟩
  · rintro ⟨h1, h2, h3, ⟨h4, h4b⟩, ⟨h5, h5b⟩⟩
    rw [if_neg h1, if_neg h2, if_neg h3, if_neg (by omega), if_neg (by omega)]

/-- Whatever the numbers are, a pass of the loop of `calculate_yield` in which the three
tests are false goes on with the clamped update. -/
theorem yieldLoop_succ_of_tests_false {D : Type} [Zero D] [One D] [Add D] [Sub D]
    [Mul D] [Div D] [Neg D] [Pow D ℕ] [NatCast D] [IntCast D] [LT D] [Fabs D]
    [∀ a b : D, Decidable (a < b)] (params : BondParams D) (fuel : Nat) (y : D)
    (h1 : ¬Fabs.fabs (calculate_npv params y) < TOLERANCE)
    (h2 : ¬Fabs.fabs (calculate_npv_derivative params y) < DBL_EPSILON)
    (h3 : ¬Fabs.fabs (calculate_npv params y / calculate_npv_derivative params y)
      < TOLERANCE) :
    yieldLoop params (fuel + 1) y
      = ⟨(yieldLoop params fuel (clamp_rate params
            (y - calculate_npv params y / calculate_npv_derivative params y))).exit,
          y :: (yieldLoop params fuel (clamp_rate params
            (y - calculate_npv params y / calculate_npv_derivative params y))).evaluated⟩ := by
  simp only [yieldLoop, if_neg h1, if_neg h2, if_neg h3]

end AnyNumbers

section NaNInput

variable {K : Type} [LinearOrderedField K]

/-- On parameters that are numbers, `validate_params` read on doubles is
`validate_params` read on numbers. -/
theorem validate_params_toDbl (params : BondParams K) :
    validate_params params.toDbl = validate_params params := rfl

/-- The cash flows do not read the price. -/
theorem cash_flow_with_price (params : BondParams (Dbl K)) (price2 : Dbl K) (i : Nat) :
    cash_flow { params with price := price2 } i = cash_flow params i := rfl

/-- On numbers the cash flows read on doubles are the cash flows read on numbers. -/
theorem cash_flow_toDbl (params : BondParams K) (i : Nat) :
    cash_flow params.toDbl i = Dbl.num (cash_flow params i) := by
  unfold cash_flow
  split_ifs with h1 h2 h2
  · rfl
  · exact absurd h1 h2
  · exact absurd h2 h1
  · rfl

/-- On numbers the loop of `calculate_npv_derivative` read on doubles is the loop read on
numbers. -/
theorem derivLoop_toDbl (params : BondParams K) (y : K) (k : Nat) :
    derivLoop params.toDbl (Dbl.num y) k
      = (Dbl.num (derivLoop params y k).1, Dbl.num (derivLoop params y k).2) := by
  induction k with
  | zero => rfl
  | succ k ih =>
    simp only [derivLoop, ih, cash_flow_toDbl]
    rfl

/-- The loop of `calculate_npv_derivative` does not read the price. -/
theorem derivLoop_with_price (params : BondParams (Dbl K)) (price2 y : Dbl K) (k : Nat) :
    derivLoop { params with price := price2 } y k = derivLoop params y k := by
  induction k with
  | zero => rfl
  | succ k ih => simp only [derivLoop, ih]; rfl

/-- With the price NaN the value is NaN at every rate. -/
theorem calculate_npv_of_price_nan (params : BondParams (Dbl K))
    (h : params.price = Dbl.nan) (y : Dbl K) : calculate_npv params y = Dbl.nan := by
  unfold calculate_npv
  rw [h, Dbl.sub_nan]

/-- At the rate NaN every pass of the loop of `calculate_npv_derivative` leaves NaN in
both variables. -/
theorem derivLoop_nan (params : BondParams (Dbl K)) (k : Nat) :
    derivLoop params Dbl.nan (k + 1) = (Dbl.nan, Dbl.nan) := by
  have hd : discount_rate params Dbl.nan = Dbl.nan := by
    unfold discount_rate
    rw [Dbl.nan_div, Dbl.add_nan]
  simp only [derivLoop, hd, Dbl.div_nan, Dbl.mul_nan, Dbl.nan_div, Dbl.sub_nan]

end NaNInput

/-- The sensitivity of the bond with the NaN price at the seed is the number
`-2000/21`. -/
theorem exampleNaNPrice_derivative :
    calculate_npv_derivative exampleNaNPrice (Dbl.num (1 / 20)) = Dbl.num (-(2000 / 21)) := by
  have h : calculate_npv_derivative (exampleParBond ℚ) (1 / 20) = -(2000 / 21) := by
    rw [calculate_npv_derivative_one_period _ rfl rfl]
    norm_num [exampleParBond]
  unfold calculate_npv_derivative exampleNaNPrice
  rw [derivLoop_with_price, derivLoop_toDbl]
  exact congrArg Dbl.num h

/-- The loop of `calculate_yield` on the bond with the NaN price, entered at the rate
NaN: no test is met and every pass evaluates at NaN. -/
theorem exampleNaNPrice_loop (fuel : Nat) :
    yieldLoop exampleNaNPrice fuel Dbl.nan
      = ⟨YieldExit.exhausted Dbl.nan, List.replicate fuel Dbl.nan⟩ := by
  induction fuel with
  | zero => rfl
  | succ fuel ih =>
    have hn : calculate_npv exampleNaNPrice Dbl.nan = Dbl.nan :=
      calculate_npv_of_price_nan exampleNaNPrice rfl _
    have hd : calculate_npv_derivative exampleNaNPrice Dbl.nan = Dbl.nan := by
      unfold calculate_npv_derivative
      rw [show (n_payments exampleNaNPrice).toNat = 0 + 1 from rfl, derivLoop_nan]
    have hc : clamp_rate exampleNaNPrice Dbl.nan = Dbl.nan := by
      unfold clamp_rate
      rw [if_neg (Dbl.not_nan_lt _)]
    rw [yieldLoop_succ_of_tests_false exampleNaNPrice fuel Dbl.nan
      (by rw [hn, Dbl.fabs_nan]; exact Dbl.not_nan_lt _)
      (by rw [hd, Dbl.fabs_nan]; exact Dbl.not_nan_lt _)
      (by rw [hn, Dbl.nan_div, Dbl.fabs_nan]; exact Dbl.not_nan_lt _),
      hn, Dbl.nan_div, Dbl.sub_nan, hc, ih, List.replicate_succ]

/-- The run of `calculate_yield` on the bond with the NaN price: the first pass is at the
seed, the other 99 at NaN, and the value returned after the loop is NaN. -/
theorem exampleNaNPrice_run :
    yieldRun exampleNaNPrice
      = ⟨YieldExit.exhausted Dbl.nan,
          Dbl.num (1 / 20) :: List.replicate 99 Dbl.nan⟩ := by
  have hn : calculate_npv exampleNaNPrice (Dbl.num (1 / 20)) = Dbl.nan :=
    calculate_npv_of_price_nan exampleNaNPrice rfl _
  have hc : clamp_rate exampleNaNPrice Dbl.nan = Dbl.nan := by
    unfold clamp_rate
    rw [if_neg (Dbl.not_nan_lt _)]
  have hg : ¬Fabs.fabs (Dbl.num (-(2000 / 21) : ℚ)) < (DBL_EPSILON : Dbl ℚ) := by
    rw [Dbl.fabs_num]
    show ¬(|(-(2000 / 21) : ℚ)| < 1 / 2 ^ 52)
    norm_num [abs_lt]
  unfold yieldRun MAX_ITERATIONS
  rw [show exampleNaNPrice.coupon_rate = Dbl.num (1 / 20) from rfl,
    yieldLoop_succ_of_tests_false exampleNaNPrice 99 (Dbl.num (1 / 20))
      (by rw [hn, Dbl.fabs_nan]; exact Dbl.not_nan_lt _)
      (by rw [exampleNaNPrice_derivative]; exact hg)
      (by rw [hn, Dbl.nan_div, Dbl.fabs_nan]; exact Dbl.not_nan_lt _),
    hn, Dbl.nan_div, Dbl.sub_nan, hc, exampleNaNPrice_loop]

/-- Claim C1, failing input. With the price NaN and every other field in its domain (the
par bond with `-p nan`), none of the guards of `validate_params` holds, so it returns `0`,
although the price is not greater than zero. -/
theorem validate_params_accepts_nan_price :
    validate_params exampleNaNPrice = 0 ∧ ¬(0 < exampleNaNPrice.price) := by
  refine ⟨(validate_params_eq_zero_iff_guards _).mpr
    ⟨Dbl.not_nan_le _, ?_, ?_, ⟨by decide, by decide⟩, ⟨by decide, by decide⟩⟩,
    Dbl.not_lt_nan _⟩
  · show ¬((100 : ℚ) ≤ 0)
    norm_num
  · show ¬((1 / 20 : ℚ) < 0)
    norm_num

/-- Claim C7, failing input. On the bond with the NaN price, which `validate_params`
accepts, `calculate_yield` calls `calculate_npv` at the rate NaN (in 99 of its 100 passes)
and returns NaN: the clamp test `yield_rate < -0.9 / frequency` is false for NaN, and NaN
is not at or above the floor. -/
theorem calculate_yield_evaluates_at_nan :
    validate_params exampleNaNPrice = 0 ∧
    Dbl.nan ∈ (yieldRun exampleNaNPrice).evaluated ∧
    calculate_yield exampleNaNPrice = some Dbl.nan ∧
    ¬(rate_floor exampleNaNPrice ≤ Dbl.nan) ∧
    (yieldRun exampleNaNPrice).evaluated.length = 100 := by
  refine ⟨(validate_params_eq_zero_iff_guards _).mpr
    ⟨Dbl.not_nan_le _, ?_, ?_, ⟨by decide, by decide⟩, ⟨by decide, by decide⟩⟩,
    ?_, ?_, Dbl.not_le_nan _, ?_⟩
  · show ¬((100 : ℚ) ≤ 0)
    norm_num
  · show ¬((1 / 20 : ℚ) < 0)
    norm_num
  · rw [exampleNaNPrice_run]
    exact List.mem_cons_of_mem _ (List.mem_replicate.mpr ⟨by decide, rfl⟩)
  · rw [calculate_yield, exampleNaNPrice_run]
    rfl
  · rw [exampleNaNPrice_run]
    simp

/-- Claim C11, failing input. On the bond with the NaN price, which `validate_params`
accepts, every test of the loop is false in each of the 100 passes, the derivative guard
never fires, and the statement `return yield_rate` after the loop returns NaN. -/
theorem calculate_yield_returns_nan_after_loop :
    validate_params exampleNaNPrice = 0 ∧
    (yieldRun exampleNaNPrice).exit = YieldExit.exhausted Dbl.nan ∧
    (yieldRun exampleNaNPrice).exit ≠ YieldExit.degenerate ∧
    (yieldRun exampleNaNPrice).evaluated.length = 100 := by
  refine ⟨(validate_params_eq_zero_iff_guards _).mpr
    ⟨Dbl.not_nan_le _, ?_, ?_, ⟨by decide, by decide⟩, ⟨by decide, by decide⟩⟩,
    ?_, ?_, ?_⟩
  · show ¬((100 : ℚ) ≤ 0)
    norm_num
  · show ¬((1 / 20 : ℚ) < 0)
    norm_num
  · rw [exampleNaNPrice_run]
  · rw [exampleNaNPrice_run]
    exact fun h => YieldExit.noConfusion h
  · rw [exampleNaNPrice_run]
    simp

/-- The run of the solver on the zero-coupon bond priced at `1000.000005`: the first
update is clamped to the floor `-0.9`, and the second pass leaves through the step-size
test with its update clamped again. -/
theorem exampleClampExit_run :
    yieldRun exampleClampExit = ⟨YieldExit.stepConverged (-(9 / 10)), [0, -(9 / 10)]⟩ := by
  have e1 : calculate_npv exampleClampExit 0 = -(180000001 / 200000) := by
    rw [calculate_npv_one_period _ rfl rfl]; norm_num [exampleClampExit]
  have e2 : calculate_npv_derivative exampleClampExit 0 = -100 := by
    rw [calculate_npv_derivative_one_period _ rfl rfl]; norm_num [exampleClampExit]
  have e3 : calculate_npv exampleClampExit (-(9 / 10)) = -(1 / 200000) := by
    rw [calculate_npv_one_period _ rfl rfl]; norm_num [exampleClampExit]
  have e4 : calculate_npv_derivative exampleClampExit (-(9 / 10)) = -10000 := by
    rw [calculate_npv_derivative_one_period _ rfl rfl]; norm_num [exampleClampExit]
  have c1 : clamp_rate exampleClampExit (0 - -(180000001 / 200000) / -100) = -(9 / 10) := by
    norm_num [clamp_rate, rate_floor, exampleClampExit]
  have c2 : clamp_rate exampleClampExit (-(9 / 10) - -(1 / 200000) / -10000)
      = -(9 / 10) := by
    norm_num [clamp_rate, rate_floor, exampleClampExit]
  unfold yieldRun MAX_ITERATIONS
  rw [show exampleClampExit.coupon_rate = 0 from rfl,
    yieldLoop_continue exampleClampExit 99 0
      (by rw [e1]; norm_num [TOLERANCE, abs_lt])
      (by rw [e2]; norm_num [DBL_EPSILON, abs_lt])
      (by rw [e1, e2]; norm_num [TOLERANCE, abs_lt])]
  simp only [e1, e2, c1]
  rw [yieldLoop_of_step_small exampleClampExit 98 (-(9 / 10))
      (by rw [e3]; norm_num [TOLERANCE, abs_lt])
      (by rw [e4]; norm_num [DBL_EPSILON, abs_lt])
      (by rw [e3, e4]; norm_num [TOLERANCE, abs_lt])]
  simp only [e3, e4, c2]

/-- Claim C5, counterexample. On the validated one-year zero-coupon bond of face value
100 priced at `1000.000005`, `calculate_yield` returns the floor `-0.9` through the
step-size test of its second pass (step `5e-10`, update clamped), and the net present
value at that rate is `-5e-6`, which is not below `1e-6` in absolute value. -/
theorem npv_root_property_counterexample :
    validate_params exampleClampExit = 0 ∧
    (yieldRun exampleClampExit).exit = YieldExit.stepConverged (-(9 / 10)) ∧
    calculate_yield exampleClampExit = some (-(9 / 10)) ∧
    calculate_npv exampleClampExit (-(9 / 10)) = -(5 / 10 ^ 6) ∧
    ¬|calculate_npv exampleClampExit (-(9 / 10))| < 1 / 10 ^ 6 := by
  have e3 : calculate_npv exampleClampExit (-(9 / 10)) = -(5 / 10 ^ 6) := by
    rw [calculate_npv_one_period _ rfl rfl]; norm_num [exampleClampExit]
  refine ⟨(validate_params_eq_zero_iff _).mpr (by norm_num [exampleClampExit]),
    by rw [exampleClampExit_run], by rw [calculate_yield, exampleClampExit_run]; rfl, e3, ?_⟩
  rw [e3]
  norm_num [abs_lt]

/-! ## Newton's iteration from the left of the root -/

section FromBelow
variable {K : Type} [LinearOrderedField K]

end FromBelow

/-! ## Durations of a bond priced at or below par -/

section DurationBelowPar
variable {K : Type} [LinearOrderedField K]

end DurationBelowPar

end BondDuration
